import Mathlib

/-!
Verification development for the `excelmetadata` Go library.

The library extracts structural metadata from an Excel workbook through a
fixed query surface of the underlying spreadsheet parser (excelize) and
serializes the resulting `Metadata` model either as a JSON interchange
document or as a Go source-literal reconstruction program.

This file shallowly embeds the library: the spreadsheet-parser query surface
becomes an explicit record of functions (`ExcelFile`), fallible Go calls
`(v, err)` become `Option` results (with `none` for a non-nil error), Go
`int` becomes `Int`, Go `float64` becomes `Rat` (Go's float-to-shortest-
decimal round-trip is exact, so exact rationals model the serialized
values), Go maps become association lists whose list order stands for Go's
(unspecified) iteration order, and `time.Time` becomes an explicit UTC
calendar record `GoTime`.
-/

set_option maxHeartbeats 1000000

namespace Excelmetadata

/-! ## Decimal digits, as printed by Go's strconv / fmt %d -/

/-- Decimal digit character of `n % 10`. -/
def digitChar (n : Nat) : Char := Char.ofNat (48 + n % 10)

/-- Numeric value of a decimal digit character. -/
def digitVal (c : Char) : Nat := c.toNat - 48

/-- Fuel-driven digit accumulation; the fuel only bounds the recursion
depth (structural recursion keeps the definition kernel-reducible). -/
def natDigitsAux (fuel n : Nat) : List Char :=
  match fuel with
  | 0 => []
  | fuel + 1 =>
      if n < 10 then [digitChar n] else natDigitsAux fuel (n / 10) ++ [digitChar n]

/-- Decimal digits of a natural number, most significant first (Go `%d`). -/
def natDigits (n : Nat) : List Char := natDigitsAux (n + 1) n

/-- Decimal rendering of a natural number (Go `%d`). -/
def natRepr (n : Nat) : String := ⟨natDigits n⟩

/-- Decimal rendering of an integer (Go `%d`). -/
def intRepr (i : Int) : String :=
  if i < 0 then "-" ++ natRepr (-i).toNat else natRepr i.toNat

/-- Parse a list of decimal digit characters (no sign), as Go's strconv does. -/
def parseNatChars (l : List Char) : Option Nat :=
  if l ≠ [] ∧ l.all Char.isDigit then
    some (l.foldl (fun acc c => acc * 10 + digitVal c) 0)
  else none

/-- Parse a decimal integer with optional leading minus sign. -/
def parseIntStr (s : String) : Option Int :=
  match s.data with
  | c :: rest =>
      if c = '-' then (parseNatChars rest).map fun n => -(n : Int)
      else (parseNatChars s.data).map fun n => (n : Int)
  | [] => none

/-- Hexadecimal digit character of `n % 16` (lowercase, as Go `%x`). -/
def hexDigitChar (n : Nat) : Char :=
  if n % 16 < 10 then Char.ofNat (48 + n % 16) else Char.ofNat (87 + n % 16)

/-- Fuel-driven hexadecimal digit accumulation. -/
def hexDigitsAux (fuel n : Nat) : List Char :=
  match fuel with
  | 0 => []
  | fuel + 1 =>
      if n < 16 then [hexDigitChar n]
      else hexDigitsAux fuel (n / 16) ++ [hexDigitChar n]

/-- Lowercase hexadecimal digits of a natural number, as Go `%x`. -/
def hexDigits (n : Nat) : List Char := hexDigitsAux (n + 1) n

/-! ## Fixed-width decimal fields of the RFC 3339 timestamp -/

/-- Two fixed decimal digits of `n % 100`. -/
def pad2 (n : Nat) : List Char := [digitChar (n / 10), digitChar n]

/-- Four fixed decimal digits of `n % 10000`. -/
def pad4 (n : Nat) : List Char :=
  [digitChar (n / 1000), digitChar (n / 100), digitChar (n / 10), digitChar n]

/-- Nine fixed decimal digits of `n % 1000000000`. -/
def pad9 (n : Nat) : List Char :=
  [digitChar (n / 100000000), digitChar (n / 10000000), digitChar (n / 1000000),
   digitChar (n / 100000), digitChar (n / 10000), digitChar (n / 1000),
   digitChar (n / 100), digitChar (n / 10), digitChar n]

/-- Value of two decimal digit characters. -/
def val2 (a b : Char) : Nat := digitVal a * 10 + digitVal b

/-- Value of four decimal digit characters. -/
def val4 (a b c d : Char) : Nat :=
  digitVal a * 1000 + digitVal b * 100 + digitVal c * 10 + digitVal d

/-- Value of nine decimal digit characters. -/
def val9 (a b c d e f g h i : Char) : Nat :=
  digitVal a * 100000000 + digitVal b * 10000000 + digitVal c * 1000000 +
  digitVal d * 100000 + digitVal e * 10000 + digitVal f * 1000 +
  digitVal g * 100 + digitVal h * 10 + digitVal i

/-! ## Go time.Time, modelled as a UTC calendar record -/

/-- Model of a Go `time.Time` in UTC: the seven components the library ever
reads (`Year() ... Nanosecond()`, always with `time.UTC` in its output). -/
structure GoTime where
  Year : Nat
  Month : Nat
  Day : Nat
  Hour : Nat
  Minute : Nat
  Second : Nat
  Nanosecond : Nat
deriving DecidableEq

/-- Component bounds under which the RFC 3339 rendering is faithful; every
`time.Time` produced by `time.Now()` satisfies them. -/
def GoTime.WF (t : GoTime) : Prop :=
  t.Year < 10000 ∧ t.Month < 100 ∧ t.Day < 100 ∧ t.Hour < 100 ∧
    t.Minute < 100 ∧ t.Second < 100 ∧ t.Nanosecond < 1000000000

instance (t : GoTime) : Decidable t.WF := by
  unfold GoTime.WF; infer_instance

/-- RFC 3339 rendering of a UTC time, as Go's `time.Time.MarshalJSON`
produces it (fractional part omitted when the nanosecond field is zero; the
model always prints a full nine-digit fraction otherwise, where Go strips
trailing zeros — a spelling difference the parser below also accepts). -/
def rfc3339 (t : GoTime) : String :=
  ⟨pad4 t.Year ++ '-' :: pad2 t.Month ++ '-' :: pad2 t.Day ++ 'T' :: pad2 t.Hour ++
    ':' :: pad2 t.Minute ++ ':' :: pad2 t.Second ++
    (if t.Nanosecond = 0 then ['Z'] else '.' :: pad9 t.Nanosecond ++ ['Z'])⟩

/-- Parse the optional fractional-seconds suffix of an RFC 3339 UTC string. -/
def parseFrac : List Char → Option Nat
  | [z] => if z = 'Z' then some 0 else none
  | p :: a :: b :: c :: d :: e :: f :: g :: h :: i :: [z] =>
      if p = '.' ∧ z = 'Z' then some (val9 a b c d e f g h i) else none
  | _ => none

/-- Parse an RFC 3339 UTC timestamp, as Go's `time.Time.UnmarshalJSON`. -/
def parseRFC3339 (s : String) : Option GoTime :=
  match s.data with
  | y1 :: y2 :: y3 :: y4 :: c1 :: m1 :: m2 :: c2 :: d1 :: d2 :: c3 :: h1 :: h2 ::
      c4 :: mi1 :: mi2 :: c5 :: s1 :: s2 :: rest =>
      if c1 = '-' ∧ c2 = '-' ∧ c3 = 'T' ∧ c4 = ':' ∧ c5 = ':' then
        (parseFrac rest).map fun ns =>
          ⟨val4 y1 y2 y3 y4, val2 m1 m2, val2 d1 d2, val2 h1 h2,
            val2 mi1 mi2, val2 s1 s2, ns⟩
      else none
  | _ => none

/-! ## Base64 (standard alphabet with padding), as Go encodes []byte in JSON -/

/-- Character of the standard base64 alphabet at index `n`. -/
def b64char (n : Nat) : Char :=
  if n < 26 then Char.ofNat (65 + n)
  else if n < 52 then Char.ofNat (97 + (n - 26))
  else if n < 62 then Char.ofNat (48 + (n - 52))
  else if n = 62 then '+'
  else '/'

/-- Index of a character in the standard base64 alphabet. -/
def b64val (c : Char) : Nat :=
  if 65 ≤ c.toNat ∧ c.toNat ≤ 90 then c.toNat - 65
  else if 97 ≤ c.toNat ∧ c.toNat ≤ 122 then c.toNat - 97 + 26
  else if 48 ≤ c.toNat ∧ c.toNat ≤ 57 then c.toNat - 48 + 52
  else if c = '+' then 62
  else 63

/-- Standard base64 encoding with padding of a byte sequence, as Go's
`encoding/base64.StdEncoding` used by `encoding/json` for `[]byte`. -/
def b64encode : List Nat → List Char
  | [] => []
  | [a] => [b64char (a / 4 % 64), b64char (a % 4 * 16), '=', '=']
  | [a, b] => [b64char (a / 4 % 64), b64char (a % 4 * 16 + b / 16), b64char (b % 16 * 4), '=']
  | a :: b :: c :: rest =>
      b64char (a / 4 % 64) :: b64char (a % 4 * 16 + b / 16) ::
        b64char (b % 16 * 4 + c / 64) :: b64char (c % 64) :: b64encode rest

/-- Standard base64 decoding with padding: a final `==` quad holds one
byte, a final `=` quad two, and any other quad three. -/
def b64decode : List Char → Option (List Nat)
  | [] => some []
  | c1 :: c2 :: c3 :: c4 :: rest =>
      if c3 = '=' ∧ c4 = '=' ∧ rest = [] then
        some [b64val c1 * 4 + b64val c2 / 16]
      else if c4 = '=' ∧ rest = [] then
        some [b64val c1 * 4 + b64val c2 / 16, b64val c2 % 16 * 16 + b64val c3 / 4]
      else
        (b64decode rest).map fun l =>
          (b64val c1 * 4 + b64val c2 / 16) :: (b64val c2 % 16 * 16 + b64val c3 / 4) ::
            (b64val c3 % 4 * 64 + b64val c4) :: l
  | _ => none

/-! ## Data model (this library's exported record types)

Field names and order follow the Go source. Go `int` is `Int`, `float64` is
`Rat`, pointer-typed optional fields are `Option`, slices are `List`
(`nil` and an empty slice coincide in the model), maps are association
lists in Go iteration order, `[]byte` is `List Nat`, `interface\x7b\x7d`-typed
`CellMetadata.Value` is `Option String` (the program only ever stores a
string or leaves it nil), and `excelize.CellType` (a byte) is `Nat`. -/

/-- Options configures the extraction behavior. -/
structure Options where
  IncludeCellData : Bool
  IncludeStyles : Bool
  IncludeImages : Bool
  IncludeDefinedNames : Bool
  IncludeDataValidation : Bool
  MaxCellsPerSheet : Int
deriving DecidableEq

/-- DefaultOptions returns recommended default options. -/
def DefaultOptions : Options :=
  { IncludeCellData := true
    IncludeStyles := true
    IncludeImages := true
    IncludeDefinedNames := true
    IncludeDataValidation := true
    MaxCellsPerSheet := 0 }

/-- DocumentProperties contains Excel document properties. -/
structure DocumentProperties where
  Title : String
  Subject : String
  Creator : String
  Keywords : String
  Description : String
  LastModifiedBy : String
  Category : String
  Version : String
  Created : String
  Modified : String
deriving DecidableEq

/-- Zero value of `DocumentProperties`. -/
def DocumentProperties.zero : DocumentProperties :=
  ⟨"", "", "", "", "", "", "", "", "", ""⟩

/-- SheetDimensions represents the used range of a sheet. -/
structure SheetDimensions where
  StartCell : String
  EndCell : String
  RowCount : Int
  ColCount : Int
deriving DecidableEq

/-- Zero value of `SheetDimensions`. -/
def SheetDimensions.zero : SheetDimensions := ⟨"", "", 0, 0⟩

/-- Hyperlink represents a cell hyperlink. -/
structure Hyperlink where
  Link : String
deriving DecidableEq

/-- CellMetadata contains metadata for a single cell. -/
structure CellMetadata where
  Address : String
  Value : Option String
  Formula : String
  StyleID : Int
  «Type» : Nat
  Hyperlink : Option Hyperlink
deriving DecidableEq

/-- MergedCell represents a merged cell range. -/
structure MergedCell where
  StartCell : String
  EndCell : String
  Value : String
deriving DecidableEq

/-- DataValidation represents data validation rules. -/
structure DataValidation where
  Range : String
  «Type» : String
  Operator : String
  Formula1 : String
  Formula2 : String
  ShowError : Bool
  ErrorTitle : Option String
  ErrorMessage : Option String
deriving DecidableEq

/-- SheetProtection represents sheet protection settings. -/
structure SheetProtection where
  Protected : Bool
  Password : String
  EditObjects : Bool
  EditScenarios : Bool
  SelectLockedCells : Bool
  SelectUnlockedCells : Bool
deriving DecidableEq

/-- DefinedName represents a named range. -/
structure DefinedName where
  Name : String
  RefersTo : String
  Scope : String
deriving DecidableEq

/-- FontStyle represents font formatting. -/
structure FontStyle where
  Bold : Bool
  Italic : Bool
  Underline : String
  Strike : Bool
  Family : String
  Size : Rat
  Color : String
deriving DecidableEq

/-- FillStyle represents cell fill formatting. -/
structure FillStyle where
  «Type» : String
  Pattern : Int
  Color : List String
deriving DecidableEq

/-- BorderStyle represents cell border formatting. -/
structure BorderStyle where
  «Type» : String
  Color : String
  Style : Int
deriving DecidableEq

/-- AlignmentStyle represents text alignment. -/
structure AlignmentStyle where
  Horizontal : String
  Vertical : String
  WrapText : Bool
  TextRotation : Int
  Indent : Int
  ShrinkToFit : Bool
deriving DecidableEq

/-- Protection represents cell protection settings. -/
structure Protection where
  Hidden : Bool
  Locked : Bool
deriving DecidableEq

/-- StyleDetails contains detailed style information. -/
structure StyleDetails where
  Font : Option FontStyle
  Fill : Option FillStyle
  Border : List BorderStyle
  Alignment : Option AlignmentStyle
  NumberFormat : Int
  Protection : Option Protection
deriving DecidableEq

/-- ImageFormat mirrors excelize's picture-format options. -/
structure ImageFormat where
  AltText : String
  PrintObject : Option Bool
  Locked : Option Bool
  LockAspectRatio : Bool
  AutoFit : Bool
  AutoFitIgnoreAspect : Bool
  OffsetX : Int
  OffsetY : Int
  ScaleX : Rat
  ScaleY : Rat
  Hyperlink : String
  HyperlinkType : String
  Positioning : String
deriving DecidableEq

/-- ImageMetadata represents image information. -/
structure ImageMetadata where
  Cell : String
  File : List Nat
  Extension : String
  InsertType : Nat
  Format : Option ImageFormat
deriving DecidableEq

/-- SheetMetadata contains metadata for a single sheet. -/
structure SheetMetadata where
  Index : Int
  Name : String
  Visible : Bool
  Dimensions : SheetDimensions
  MergedCells : List MergedCell
  DataValidations : List DataValidation
  Protection : Option SheetProtection
  RowHeights : List (Int × Rat)
  ColWidths : List (String × Rat)
  Cells : List CellMetadata
  Images : List ImageMetadata
deriving DecidableEq

/-- Metadata represents the complete Excel file metadata. -/
structure Metadata where
  Filename : String
  Properties : DocumentProperties
  Sheets : List SheetMetadata
  DefinedNames : List DefinedName
  Styles : List (Int × StyleDetails)
  ExtractedAt : GoTime
deriving DecidableEq

/-! ## The consumed excelize query surface

Raw result records of the parser collaborator, holding exactly the fields
the library reads, and the `ExcelFile` record of read-only queries. A query
returning `(value, error)` whose error the library branches on is modelled
as `Option` (`none` = non-nil error); queries whose error the library
ignores with `_` are modelled by their value alone (for `GetCols` the
error case coincides with the nil slice, i.e. `[]`). -/

/-- Raw document properties, as returned by `GetDocProps`. -/
structure RawDocProps where
  Title : String
  Subject : String
  Creator : String
  Keywords : String
  Description : String
  LastModifiedBy : String
  Category : String
  Version : String
  Created : String
  Modified : String
deriving DecidableEq

/-- Raw defined name, as returned by `GetDefinedName`. -/
structure RawDefinedName where
  Name : String
  RefersTo : String
  Scope : String
deriving DecidableEq

/-- Raw merged-cell range: the three accessors the library calls. -/
structure RawMergeCell where
  StartAxis : String
  EndAxis : String
  CellValue : String
deriving DecidableEq

/-- Raw data-validation rule, as returned by `GetDataValidations`. -/
structure RawDataValidation where
  Sqref : String
  «Type» : String
  Operator : String
  Formula1 : String
  Formula2 : String
  ShowErrorMessage : Bool
  ErrorTitle : Option String
  Error : Option String
deriving DecidableEq

/-- Raw font record of an excelize `Style`. -/
structure RawFont where
  Bold : Bool
  Italic : Bool
  Underline : String
  Strike : Bool
  Family : String
  Size : Rat
  Color : String
deriving DecidableEq

/-- Raw fill record of an excelize `Style`. -/
structure RawFill where
  «Type» : String
  Pattern : Int
  Color : List String
deriving DecidableEq

/-- Raw border record of an excelize `Style`. -/
structure RawBorder where
  «Type» : String
  Color : String
  Style : Int
deriving DecidableEq

/-- Raw alignment record of an excelize `Style`. -/
structure RawAlignment where
  Horizontal : String
  Vertical : String
  WrapText : Bool
  TextRotation : Int
  Indent : Int
  ShrinkToFit : Bool
deriving DecidableEq

/-- Raw protection record of an excelize `Style`. -/
structure RawProtection where
  Hidden : Bool
  Locked : Bool
deriving DecidableEq

/-- Raw style, as returned by `GetStyle`. -/
structure RawStyle where
  NumFmt : Int
  Font : Option RawFont
  Fill : RawFill
  Border : List RawBorder
  Alignment : Option RawAlignment
  Protection : Option RawProtection
deriving DecidableEq

/-- Raw picture format options (`excelize.GraphicOptions`). -/
structure RawPictureFormat where
  AltText : String
  PrintObject : Option Bool
  Locked : Option Bool
  LockAspectRatio : Bool
  AutoFit : Bool
  AutoFitIgnoreAspect : Bool
  OffsetX : Int
  OffsetY : Int
  ScaleX : Rat
  ScaleY : Rat
  Hyperlink : String
  HyperlinkType : String
  Positioning : String
deriving DecidableEq

/-- Raw picture, as returned by `GetPictures`. -/
structure RawPicture where
  File : List Nat
  Extension : String
  InsertType : Nat
  Format : Option RawPictureFormat
deriving DecidableEq

/-- Read-only query surface of an opened workbook (`excelize.File`). -/
structure ExcelFile where
  sheetList : List String
  docProps : Option RawDocProps
  definedNames : List RawDefinedName
  getSheetVisible : String → Bool
  getRows : String → Option (List (List String))
  getMergeCells : String → Option (List RawMergeCell)
  getDataValidations : String → Option (List RawDataValidation)
  getCols : String → List (List String)
  getColWidth : String → String → Rat
  getCellFormula : String → String → Option String
  getCellStyle : String → String → Option Int
  getCellType : String → String → Option Nat
  getCellHyperLink : String → String → Option (Bool × String)
  getStyle : Int → Option RawStyle
  getPictureCells : String → Option (List String)
  getPictures : String → String → Option (List RawPicture)

/-- Extractor is the main interface for extracting Excel metadata. -/
structure Extractor where
  file : ExcelFile
  filename : String
  options : Options

/-! ## Extraction -/

/-- Fuel-driven loop body of excelize's `ColumnNumberToName`:
while `num > 0`, prepend `rune((num-1)%26+65)` and set `num = (num-1)/26`.
The fuel only bounds the recursion depth. -/
def colNameLoopAux : Nat → Nat → List Char → List Char
  | 0, _, acc => acc
  | _ + 1, 0, acc => acc
  | fuel + 1, n + 1, acc =>
      colNameLoopAux fuel (n / 26) (Char.ofNat (n % 26 + 65) :: acc)

/-- Loop of excelize's `ColumnNumberToName`. -/
def colNameLoop (n : Nat) (acc : List Char) : List Char :=
  colNameLoopAux (n + 1) n acc

/-- excelize's `ColumnNumberToName`; the library drops the error, which
amounts to the empty string for an out-of-range column number. -/
def columnNumberToName (num : Int) : String :=
  if num < 1 ∨ 16384 < num then "" else ⟨colNameLoop num.toNat []⟩

/-- Cell address `fmt.Sprintf("%s%d", col, rowIdx+1)` for zero-based
row/column scan indices. -/
def cellAddress (rowIdx colIdx : Nat) : String :=
  columnNumberToName ((colIdx : Int) + 1) ++ natRepr (rowIdx + 1)

/-- Row-major enumeration of a `GetRows` result: the `(rowIdx, colIdx,
value)` triples visited by the nested `for rowIdx, row` / `for colIdx,
value` loops, in visit order. -/
def enumCells (rows : List (List String)) : List (Nat × Nat × String) :=
  rows.enum.flatMap fun p => p.2.enum.map fun q => (p.1, q.1, q.2)

/-- Construction of one `CellMetadata` record in `extractCellData`: the
address and value are set, then formula, style id, type and hyperlink are
filled in only when their query succeeds (and, for the formula, is
non-empty; for the hyperlink, is reported present). -/
def mkCellMeta (e : Extractor) (sheetName : String) (rowIdx colIdx : Nat)
    (value : String) : CellMetadata :=
  let cellAddr := cellAddress rowIdx colIdx
  let cm : CellMetadata :=
    { Address := cellAddr, Value := some value, Formula := "", StyleID := 0,
      «Type» := 0, Hyperlink := none }
  let cm := match e.file.getCellFormula sheetName cellAddr with
    | some formula => if formula ≠ "" then { cm with Formula := formula } else cm
    | none => cm
  let cm := match e.file.getCellStyle sheetName cellAddr with
    | some styleID => { cm with StyleID := styleID }
    | none => cm
  let cm := match e.file.getCellType sheetName cellAddr with
    | some cellType => { cm with «Type» := cellType }
    | none => cm
  match e.file.getCellHyperLink sheetName cellAddr with
  | some (link, target) => if link then { cm with Hyperlink := some ⟨target⟩ } else cm
  | none => cm

/-- Scan loop of `extractCellData` over the row-major cell enumeration,
carrying `cellCount`. The nested Go loops with their short-circuiting
`return cells, nil` are modelled as one pass that stops (returning the
records accumulated so far, i.e. the enclosing cons prefix) once a
non-empty cell is reached with the cap already met. -/
def extractCellDataLoop (e : Extractor) (sheetName : String) :
    List (Nat × Nat × String) → Nat → List CellMetadata
  | [], _ => []
  | (rowIdx, colIdx, value) :: rest, cellCount =>
      if value = "" then extractCellDataLoop e sheetName rest cellCount
      else if 0 < e.options.MaxCellsPerSheet ∧
          e.options.MaxCellsPerSheet ≤ (cellCount : Int) then []
      else
        mkCellMeta e sheetName rowIdx colIdx value ::
          extractCellDataLoop e sheetName rest (cellCount + 1)

/-- extractCellData walks a sheet's rows; `none` models the `GetRows`
error return. -/
def extractCellData (e : Extractor) (sheetName : String) :
    Option (List CellMetadata) :=
  (e.file.getRows sheetName).map fun rows =>
    extractCellDataLoop e sheetName (enumCells rows) 0

/-- The non-empty cells of the row-major scan, in scan order: the cells a
capped scan takes its prefix of. -/
def nonEmptyCells (rows : List (List String)) : List (Nat × Nat × String) :=
  (enumCells rows).filter fun p => p.2.2 != ""

/-- Maximum row length of a `GetRows` result, as computed by the
`maxColCount` loop in `getSheetDimensions`. -/
def maxColCount (rows : List (List String)) : Nat :=
  rows.foldl (fun acc row => if row.length > acc then row.length else acc) 0

/-- getSheetDimensions computes the used range of a sheet. -/
def getSheetDimensions (e : Extractor) (sheetName : String) :
    Option SheetDimensions :=
  (e.file.getRows sheetName).map fun rows =>
    let rowCount := rows.length
    let maxCol := maxColCount rows
    if rowCount = 0 ∨ maxCol = 0 then
      { StartCell := "A1", EndCell := "A1", RowCount := 0, ColCount := 0 }
    else
      { StartCell := "A1"
        EndCell := columnNumberToName (maxCol : Int) ++ natRepr rowCount
        RowCount := (rowCount : Int)
        ColCount := (maxCol : Int) }

/-- extractDocumentProperties maps `GetDocProps` onto the exported record. -/
def extractDocumentProperties (e : Extractor) : Option DocumentProperties :=
  e.file.docProps.map fun props =>
    { Title := props.Title, Subject := props.Subject, Creator := props.Creator,
      Keywords := props.Keywords, Description := props.Description,
      LastModifiedBy := props.LastModifiedBy, Category := props.Category,
      Version := props.Version, Created := props.Created,
      Modified := props.Modified }

/-- extractDefinedNames collects every defined name with its scope. -/
def extractDefinedNames (e : Extractor) : List DefinedName :=
  e.file.definedNames.map fun dn =>
    { Name := dn.Name, RefersTo := dn.RefersTo, Scope := dn.Scope }

/-- extractImages resolves the pictures anchored at each picture cell; a
failing address is skipped. -/
def extractImages (e : Extractor) (sheetName : String) : List ImageMetadata :=
  match e.file.getPictureCells sheetName with
  | none => []
  | some cellAddrs =>
      cellAddrs.flatMap fun cellAddr =>
        match e.file.getPictures sheetName cellAddr with
        | none => []
        | some pictures =>
            pictures.map fun picture =>
              { Cell := cellAddr, File := picture.File,
                Extension := picture.Extension,
                InsertType := picture.InsertType,
                Format := picture.Format.map fun f =>
                  { AltText := f.AltText, PrintObject := f.PrintObject,
                    Locked := f.Locked, LockAspectRatio := f.LockAspectRatio,
                    AutoFit := f.AutoFit,
                    AutoFitIgnoreAspect := f.AutoFitIgnoreAspect,
                    OffsetX := f.OffsetX, OffsetY := f.OffsetY,
                    ScaleX := f.ScaleX, ScaleY := f.ScaleY,
                    Hyperlink := f.Hyperlink, HyperlinkType := f.HyperlinkType,
                    Positioning := f.Positioning } }

/-- extractStyleDetails decodes one style id via `GetStyle`; `none` models
its error return. The fill is kept only when its color list is non-empty,
and the border loop over an empty slice appends nothing, so a plain map
is equivalent. -/
def extractStyleDetails (e : Extractor) (styleID : Int) : Option StyleDetails :=
  (e.file.getStyle styleID).map fun style =>
    { NumberFormat := style.NumFmt
      Font := style.Font.map fun f =>
        { Bold := f.Bold, Italic := f.Italic, Underline := f.Underline,
          Strike := f.Strike, Family := f.Family, Size := f.Size,
          Color := f.Color }
      Fill := if 0 < style.Fill.Color.length then
          some { «Type» := style.Fill.«Type», Pattern := style.Fill.Pattern,
                 Color := style.Fill.Color }
        else none
      Border := style.Border.map fun b =>
        { «Type» := b.«Type», Color := b.Color, Style := b.Style }
      Alignment := style.Alignment.map fun a =>
        { Horizontal := a.Horizontal, Vertical := a.Vertical,
          WrapText := a.WrapText, TextRotation := a.TextRotation,
          Indent := a.Indent, ShrinkToFit := a.ShrinkToFit }
      Protection := style.Protection.map fun p =>
        { Hidden := p.Hidden, Locked := p.Locked } }

/-- Accumulator of the style-deduplication scan: `styles` and `processed`
mirror the two maps of the source; `decoded` additionally records every
`extractStyleDetails` (hence `GetStyle`) invocation, in call order, so that
call-count properties can be stated. -/
structure StyleAcc where
  styles : List (Int × StyleDetails)
  processed : List Int
  decoded : List Int
deriving DecidableEq

/-- Cells visited by `extractUniqueStyles`: every sheet in declared order;
sheets whose `GetRows` fails are skipped; within a sheet all positions of
the row-major enumeration (including empty cells) are visited. -/
def styleScanCells (e : Extractor) : List (String × Nat × Nat) :=
  e.file.sheetList.flatMap fun sheetName =>
    match e.file.getRows sheetName with
    | none => []
    | some rows => (enumCells rows).map fun p => (sheetName, p.1, p.2.1)

/-- Per-cell step of `extractUniqueStyles`. -/
def styleStep (e : Extractor) (acc : StyleAcc) (cell : String × Nat × Nat) :
    StyleAcc :=
  let cellAddr := cellAddress cell.2.1 cell.2.2
  match e.file.getCellStyle cell.1 cellAddr with
  | some styleID =>
      if styleID ≠ 0 then
        if styleID ∈ acc.processed then acc
        else
          match extractStyleDetails e styleID with
          | some style =>
              { styles := acc.styles ++ [(styleID, style)]
                processed := acc.processed ++ [styleID]
                decoded := acc.decoded ++ [styleID] }
          | none => { acc with decoded := acc.decoded ++ [styleID] }
      else acc
  | none => acc

/-- Full style-deduplication scan with instrumentation. -/
def styleFold (e : Extractor) : StyleAcc :=
  (styleScanCells e).foldl (styleStep e) ⟨[], [], []⟩

/-- extractUniqueStyles returns the shared style mapping. -/
def extractUniqueStyles (e : Extractor) : List (Int × StyleDetails) :=
  (styleFold e).styles

/-- Lookup in the style mapping (Go map read by key). -/
def slookup (k : Int) : List (Int × StyleDetails) → Option StyleDetails
  | [] => none
  | (k', v) :: rest => if k' = k then some v else slookup k rest

/-- Invariant of the style-deduplication scan: zero is never decoded;
`processed` marks exactly the mapped identifiers; an identifier that
decodes successfully is decoded at most once (exactly once when mapped);
identifiers whose decode fails stay unmapped; and the mapping stores the
decode result of its key. -/
def StyleInv (e : Extractor) (acc : StyleAcc) : Prop :=
  (0 : Int) ∉ acc.decoded ∧
  slookup 0 acc.styles = none ∧
  (∀ id : Int, id ∈ acc.processed ↔ (slookup id acc.styles).isSome = true) ∧
  (∀ id : Int, (e.file.getStyle id).isSome = true →
    acc.decoded.count id = (if id ∈ acc.processed then 1 else 0)) ∧
  (∀ id : Int, (e.file.getStyle id).isSome = false →
    id ∉ acc.processed ∧ slookup id acc.styles = none) ∧
  (∀ id : Int, ∀ d, slookup id acc.styles = some d →
    extractStyleDetails e id = some d ∧ id ≠ 0)

/-- Style identifiers encountered while scanning a cell list: the
`GetCellStyle` results in visit order (a failing `GetCellStyle` call
contributes nothing). -/
def styleIdList (e : Extractor) (cells : List (String × Nat × Nat)) :
    List Int :=
  cells.flatMap fun cell =>
    (e.file.getCellStyle cell.1 (cellAddress cell.2.1 cell.2.2)).toList

/-- All style identifiers encountered by `extractUniqueStyles`, in visit
order, zeros and repeats included. -/
def styleIdsSeen (e : Extractor) : List Int :=
  styleIdList e (styleScanCells e)

/-- Scan invariant strengthened with the identifiers already encountered
(`seen`, in visit order): the base invariant holds; every processed
identifier was encountered; every encountered non-zero identifier whose
decode succeeds has been processed; and an identifier whose decode fails
has been decoded once per occurrence encountered so far. -/
def StyleInv2 (e : Extractor) (seen : List Int) (acc : StyleAcc) : Prop :=
  StyleInv e acc ∧
  (∀ id : Int, id ∈ acc.processed → id ∈ seen) ∧
  (∀ id : Int, id ∈ seen → id ≠ 0 →
    (extractStyleDetails e id).isSome = true → id ∈ acc.processed) ∧
  (∀ id : Int, id ≠ 0 → extractStyleDetails e id = none →
    acc.decoded.count id = seen.count id)

/-- Column-width loop of `extractSheetMetadata`: for every index of the
`GetCols` result, record the resolved width under the column name when it
differs from the default width 9.140625. -/
def colWidthsOf (e : Extractor) (sheetName : String) : List (String × Rat) :=
  (e.file.getCols sheetName).enum.flatMap fun p =>
    let col := columnNumberToName ((p.1 : Int) + 1)
    let width := e.file.getColWidth sheetName col
    if width ≠ (9.140625 : Rat) then [(col, width)] else []

/-- extractSheetMetadata builds one sheet record; the error component of
its Go signature is carried explicitly (it is always nil). -/
def extractSheetMetadata (e : Extractor) (index : Int) (sheetName : String) :
    SheetMetadata × Option String :=
  let sheet : SheetMetadata :=
    { Index := index, Name := sheetName,
      Visible := e.file.getSheetVisible sheetName,
      Dimensions := SheetDimensions.zero, MergedCells := [],
      DataValidations := [], Protection := none, RowHeights := [],
      ColWidths := [], Cells := [], Images := [] }
  let sheet := match getSheetDimensions e sheetName with
    | some dimensions => { sheet with Dimensions := dimensions }
    | none => sheet
  let sheet := match e.file.getMergeCells sheetName with
    | some mergedCells =>
        { sheet with MergedCells := mergedCells.map fun (mc : RawMergeCell) =>
            { StartCell := mc.StartAxis, EndCell := mc.EndAxis,
              Value := mc.CellValue } }
    | none => sheet
  let sheet := if e.options.IncludeDataValidation then
      match e.file.getDataValidations sheetName with
      | some dvs =>
          { sheet with DataValidations := dvs.map fun (dv : RawDataValidation) =>
              { Range := dv.Sqref, «Type» := dv.«Type»,
                Operator := dv.Operator, Formula1 := dv.Formula1,
                Formula2 := dv.Formula2, ShowError := dv.ShowErrorMessage,
                ErrorTitle := dv.ErrorTitle, ErrorMessage := dv.Error } }
      | none => sheet
    else sheet
  let sheet := { sheet with RowHeights := [], ColWidths := colWidthsOf e sheetName }
  let sheet := if e.options.IncludeCellData then
      match extractCellData e sheetName with
      | some cells => { sheet with Cells := cells }
      | none => sheet
    else sheet
  let sheet := if e.options.IncludeImages then
      { sheet with Images := extractImages e sheetName }
    else sheet
  (sheet, none)

/-- Sheet loop of `Extract`: a sheet is appended unless its extraction
reports an error, in which case it is skipped. -/
def extractSheets (e : Extractor) : List SheetMetadata :=
  e.file.sheetList.enum.foldl
    (fun acc p =>
      match extractSheetMetadata e (p.1 : Int) p.2 with
      | (sheetMeta, none) => acc ++ [sheetMeta]
      | (_, some _) => acc)
    []

/-- Extract performs the metadata extraction; `time.Now()` is passed in as
`now`. The result pairs the metadata with the (always nil) error. -/
def Extract (e : Extractor) (now : GoTime) : Metadata × Option String :=
  let metadata : Metadata :=
    { Filename := e.filename, Properties := DocumentProperties.zero,
      Sheets := [], DefinedNames := [], Styles := [], ExtractedAt := now }
  let metadata := match extractDocumentProperties e with
    | some props => { metadata with Properties := props }
    | none => metadata
  let metadata := if e.options.IncludeDefinedNames then
      { metadata with DefinedNames := extractDefinedNames e }
    else metadata
  let metadata := { metadata with Sheets := extractSheets e }
  let metadata := if e.options.IncludeStyles then
      { metadata with Styles := extractUniqueStyles e }
    else metadata
  (metadata, none)

/-! ## JSON documents

Shallow model of the `encoding/json` interchange encoding: `Metadata` is
mapped to a JSON document AST following the struct tags of the source
(`omitempty` fields are omitted exactly when Go's `isEmptyValue` holds),
and decoding maps a document back, giving absent fields their Go zero
value. `json.Marshal` and `json.MarshalIndent` are the compact and
indented renderings of this same document. -/

/-- JSON document AST. Numbers are exact rationals: Go's float64/int JSON
round-trip is value-exact, which is what the AST records. -/
inductive Json where
  | null : Json
  | bool : Bool → Json
  | num : Rat → Json
  | str : String → Json
  | arr : List Json → Json
  | obj : List (String × Json) → Json

/-- First binding of a key in a JSON object's field list. -/
def jlookup (k : String) : List (String × Json) → Option Json
  | [] => none
  | (k', v) :: rest => if k' = k then some v else jlookup k rest

/-! Field-list builders, one per Go field shape; the `O` variants model an
`omitempty` tag. -/

/-- Field builder for `string`. -/
def jStr (k s : String) : List (String × Json) := [(k, Json.str s)]

/-- Field builder for `string` with omitempty. -/
def jStrO (k s : String) : List (String × Json) :=
  if s = "" then [] else [(k, Json.str s)]

/-- Field builder for `bool`. -/
def jBool (k : String) (b : Bool) : List (String × Json) := [(k, Json.bool b)]

/-- Field builder for `bool` with omitempty. -/
def jBoolO (k : String) (b : Bool) : List (String × Json) :=
  if b then [(k, Json.bool b)] else []

/-- Field builder for `int`. -/
def jInt (k : String) (i : Int) : List (String × Json) := [(k, Json.num i)]

/-- Field builder for `int` with omitempty. -/
def jIntO (k : String) (i : Int) : List (String × Json) :=
  if i = 0 then [] else [(k, Json.num i)]

/-- Field builder for a byte-sized unsigned integer. -/
def jNat (k : String) (n : Nat) : List (String × Json) := [(k, Json.num n)]

/-- Field builder for `float64`. -/
def jRat (k : String) (q : Rat) : List (String × Json) := [(k, Json.num q)]

/-- Field builder for `float64` with omitempty. -/
def jRatO (k : String) (q : Rat) : List (String × Json) :=
  if q = 0 then [] else [(k, Json.num q)]

/-- Field builder for `*string` with omitempty (nil omitted, a present
pointee emitted even when empty). -/
def jOptStr (k : String) (o : Option String) : List (String × Json) :=
  match o with
  | none => []
  | some s => [(k, Json.str s)]

/-- Field builder for `*bool` without omitempty (nil becomes null). -/
def jOptBoolNull (k : String) (o : Option Bool) : List (String × Json) :=
  match o with
  | none => [(k, Json.null)]
  | some b => [(k, Json.bool b)]

/-- Field builder for the `interface\x7b\x7d`-typed cell value with
omitempty: a nil interface is omitted, a held string is emitted. -/
def jValO (k : String) (o : Option String) : List (String × Json) :=
  match o with
  | none => []
  | some s => [(k, Json.str s)]

/-- Field builder for a slice field without omitempty. -/
def jArr (k : String) (xs : List Json) : List (String × Json) := [(k, Json.arr xs)]

/-- Field builder for a slice field with omitempty. -/
def jArrO (k : String) (xs : List Json) : List (String × Json) :=
  match xs with
  | [] => []
  | _ => [(k, Json.arr xs)]

/-- Field builder for an always-present nested struct. -/
def jObj (k : String) (j : Json) : List (String × Json) := [(k, j)]

/-- Field builder for an optional nested struct pointer with omitempty. -/
def jOptO (k : String) (o : Option Json) : List (String × Json) :=
  match o with
  | none => []
  | some j => [(k, j)]

/-- Field builder for an optional nested struct pointer without omitempty
(nil becomes null). -/
def jOptNull (k : String) (o : Option Json) : List (String × Json) :=
  match o with
  | none => [(k, Json.null)]
  | some j => [(k, j)]

/-- Field builder for a map field with omitempty, already encoded as
key/value pairs. -/
def jMapO (k : String) (fs : List (String × Json)) : List (String × Json) :=
  match fs with
  | [] => []
  | _ => [(k, Json.obj fs)]

/-- Field builder for `[]byte` without omitempty: base64 text. -/
def jBytes (k : String) (bytes : List Nat) : List (String × Json) :=
  [(k, Json.str ⟨b64encode bytes⟩)]

/-- Field builder for `time.Time` without omitempty: RFC 3339 text. -/
def jTime (k : String) (t : GoTime) : List (String × Json) :=
  [(k, Json.str (rfc3339 t))]

/-! Field decoders: each consumes the result of looking up one key in an
object's field list, yielding the Go zero value when the key is absent
(`none`) and failing on a type mismatch. -/

/-- Decode a `string` field. -/
def dStr : Option Json → Option String
  | none => some ""
  | some (Json.str s) => some s
  | some _ => none

/-- Decode a `bool` field. -/
def dBool : Option Json → Option Bool
  | none => some false
  | some (Json.bool b) => some b
  | some _ => none

/-- Decode an `int` field. -/
def dInt : Option Json → Option Int
  | none => some 0
  | some (Json.num q) => if q.den = 1 then some q.num else none
  | some _ => none

/-- Decode a byte-sized unsigned integer field. -/
def dNat : Option Json → Option Nat
  | none => some 0
  | some (Json.num q) => if q.den = 1 ∧ 0 ≤ q.num then some q.num.toNat else none
  | some _ => none

/-- Decode a `float64` field. -/
def dRat : Option Json → Option Rat
  | none => some 0
  | some (Json.num q) => some q
  | some _ => none

/-- Decode a `*string` field. -/
def dOptStr : Option Json → Option (Option String)
  | none => some none
  | some Json.null => some none
  | some (Json.str s) => some (some s)
  | some _ => none

/-- Decode a `*bool` field. -/
def dOptBool : Option Json → Option (Option Bool)
  | none => some none
  | some Json.null => some none
  | some (Json.bool b) => some (some b)
  | some _ => none

/-- Decode the `interface\x7b\x7d`-typed cell value field. -/
def dVal : Option Json → Option (Option String)
  | none => some none
  | some Json.null => some none
  | some (Json.str s) => some (some s)
  | some _ => none

/-- Decode a slice field element-wise. -/
def dList (dec : Json → Option α) : Option Json → Option (List α)
  | none => some []
  | some Json.null => some []
  | some (Json.arr xs) => xs.mapM dec
  | some _ => none

/-- Decode an optional nested struct pointer field. -/
def dOpt (dec : Json → Option α) : Option Json → Option (Option α)
  | none => some none
  | some Json.null => some none
  | some j => (dec j).map some

/-- Decode an always-present nested struct field, with its zero value for
an absent key. -/
def dStruct (dec : Json → Option α) (dflt : α) : Option Json → Option α
  | none => some dflt
  | some j => dec j

/-- Decode a string-keyed `float64` map field. -/
def dStrRatMap : Option Json → Option (List (String × Rat))
  | none => some []
  | some Json.null => some []
  | some (Json.obj kvs) =>
      kvs.mapM fun p =>
        match p.2 with
        | Json.num q => some (p.1, q)
        | _ => none
  | some _ => none

/-- Decode an int-keyed map field given an element decoder. -/
def dIntMap (dec : Json → Option α) : Option Json → Option (List (Int × α))
  | none => some []
  | some Json.null => some []
  | some (Json.obj kvs) =>
      kvs.mapM fun p => do
        let key ← parseIntStr p.1
        let v ← dec p.2
        pure (key, v)
  | some _ => none

/-- Decode a `[]byte` field. -/
def dBytes : Option Json → Option (List Nat)
  | none => some []
  | some Json.null => some []
  | some (Json.str s) => b64decode s.data
  | some _ => none

/-- Decode a `time.Time` field. -/
def dTime : Option Json → Option GoTime
  | none => some ⟨1, 1, 1, 0, 0, 0, 0⟩
  | some (Json.str s) => parseRFC3339 s
  | some _ => none

/-- Decode a JSON string element. -/
def decodeJsonStr : Json → Option String
  | Json.str s => some s
  | _ => none

/-- Decode a JSON number element. -/
def decodeJsonNum : Json → Option Rat
  | Json.num q => some q
  | _ => none

/-! Per-record encoders and decoders, following the struct tags. -/

/-- JSON fields of `DocumentProperties`. -/
def DocumentProperties.jfields (p : DocumentProperties) : List (String × Json) :=
  jStrO "title" p.Title ++ jStrO "subject" p.Subject ++ jStrO "creator" p.Creator ++
  jStrO "keywords" p.Keywords ++ jStrO "description" p.Description ++
  jStrO "lastModifiedBy" p.LastModifiedBy ++ jStrO "category" p.Category ++
  jStrO "version" p.Version ++ jStrO "created" p.Created ++
  jStrO "modified" p.Modified

/-- JSON document of `DocumentProperties`. -/
def DocumentProperties.toJson (p : DocumentProperties) : Json := Json.obj p.jfields

/-- Decode `DocumentProperties`. -/
def decodeDocumentProperties : Json → Option DocumentProperties
  | Json.obj fs => do
      let title ← dStr (jlookup "title" fs)
      let subject ← dStr (jlookup "subject" fs)
      let creator ← dStr (jlookup "creator" fs)
      let keywords ← dStr (jlookup "keywords" fs)
      let description ← dStr (jlookup "description" fs)
      let lastModifiedBy ← dStr (jlookup "lastModifiedBy" fs)
      let category ← dStr (jlookup "category" fs)
      let version ← dStr (jlookup "version" fs)
      let created ← dStr (jlookup "created" fs)
      let modified ← dStr (jlookup "modified" fs)
      pure ⟨title, subject, creator, keywords, description, lastModifiedBy,
        category, version, created, modified⟩
  | _ => none

/-- JSON document of `SheetDimensions`. -/
def SheetDimensions.toJson (d : SheetDimensions) : Json :=
  Json.obj (jStr "startCell" d.StartCell ++ jStr "endCell" d.EndCell ++
    jInt "rowCount" d.RowCount ++ jInt "colCount" d.ColCount)

/-- Decode `SheetDimensions`. -/
def decodeSheetDimensions : Json → Option SheetDimensions
  | Json.obj fs => do
      let startCell ← dStr (jlookup "startCell" fs)
      let endCell ← dStr (jlookup "endCell" fs)
      let rowCount ← dInt (jlookup "rowCount" fs)
      let colCount ← dInt (jlookup "colCount" fs)
      pure ⟨startCell, endCell, rowCount, colCount⟩
  | _ => none

/-- JSON document of `Hyperlink`. -/
def Hyperlink.toJson (h : Hyperlink) : Json := Json.obj (jStr "link" h.Link)

/-- Decode `Hyperlink`. -/
def decodeHyperlink : Json → Option Hyperlink
  | Json.obj fs => (dStr (jlookup "link" fs)).map fun link => ⟨link⟩
  | _ => none

/-- JSON document of `CellMetadata`. -/
def CellMetadata.toJson (c : CellMetadata) : Json :=
  Json.obj (jStr "address" c.Address ++ jValO "value" c.Value ++
    jStrO "formula" c.Formula ++ jIntO "styleId" c.StyleID ++
    jNat "type" c.«Type» ++ jOptO "hyperlink" (c.Hyperlink.map Hyperlink.toJson))

/-- Decode `CellMetadata`. -/
def decodeCellMetadata : Json → Option CellMetadata
  | Json.obj fs => do
      let address ← dStr (jlookup "address" fs)
      let value ← dVal (jlookup "value" fs)
      let formula ← dStr (jlookup "formula" fs)
      let styleId ← dInt (jlookup "styleId" fs)
      let cellType ← dNat (jlookup "type" fs)
      let hyperlink ← dOpt decodeHyperlink (jlookup "hyperlink" fs)
      pure ⟨address, value, formula, styleId, cellType, hyperlink⟩
  | _ => none

/-- JSON document of `MergedCell`. -/
def MergedCell.toJson (mc : MergedCell) : Json :=
  Json.obj (jStr "startCell" mc.StartCell ++ jStr "endCell" mc.EndCell ++
    jStrO "value" mc.Value)

/-- Decode `MergedCell`. -/
def decodeMergedCell : Json → Option MergedCell
  | Json.obj fs => do
      let startCell ← dStr (jlookup "startCell" fs)
      let endCell ← dStr (jlookup "endCell" fs)
      let value ← dStr (jlookup "value" fs)
      pure ⟨startCell, endCell, value⟩
  | _ => none

/-- JSON document of `DataValidation`. -/
def DataValidation.toJson (dv : DataValidation) : Json :=
  Json.obj (jStr "range" dv.Range ++ jStr "type" dv.«Type» ++
    jStrO "operator" dv.Operator ++ jStrO "formula1" dv.Formula1 ++
    jStrO "formula2" dv.Formula2 ++ jBool "showError" dv.ShowError ++
    jOptStr "errorTitle" dv.ErrorTitle ++ jOptStr "errorMessage" dv.ErrorMessage)

/-- Decode `DataValidation`. -/
def decodeDataValidation : Json → Option DataValidation
  | Json.obj fs => do
      let range ← dStr (jlookup "range" fs)
      let dvType ← dStr (jlookup "type" fs)
      let operator ← dStr (jlookup "operator" fs)
      let formula1 ← dStr (jlookup "formula1" fs)
      let formula2 ← dStr (jlookup "formula2" fs)
      let showError ← dBool (jlookup "showError" fs)
      let errorTitle ← dOptStr (jlookup "errorTitle" fs)
      let errorMessage ← dOptStr (jlookup "errorMessage" fs)
      pure ⟨range, dvType, operator, formula1, formula2, showError,
        errorTitle, errorMessage⟩
  | _ => none

/-- JSON document of `SheetProtection`. -/
def SheetProtection.toJson (sp : SheetProtection) : Json :=
  Json.obj (jBool "protected" sp.Protected ++ jStrO "password" sp.Password ++
    jBool "editObjects" sp.EditObjects ++ jBool "editScenarios" sp.EditScenarios ++
    jBool "selectLockedCells" sp.SelectLockedCells ++
    jBool "selectUnlockedCells" sp.SelectUnlockedCells)

/-- Decode `SheetProtection`. -/
def decodeSheetProtection : Json → Option SheetProtection
  | Json.obj fs => do
      let protected_ ← dBool (jlookup "protected" fs)
      let password ← dStr (jlookup "password" fs)
      let editObjects ← dBool (jlookup "editObjects" fs)
      let editScenarios ← dBool (jlookup "editScenarios" fs)
      let selectLockedCells ← dBool (jlookup "selectLockedCells" fs)
      let selectUnlockedCells ← dBool (jlookup "selectUnlockedCells" fs)
      pure ⟨protected_, password, editObjects, editScenarios,
        selectLockedCells, selectUnlockedCells⟩
  | _ => none

/-- JSON document of `DefinedName`. -/
def DefinedName.toJson (dn : DefinedName) : Json :=
  Json.obj (jStr "name" dn.Name ++ jStr "refersTo" dn.RefersTo ++
    jStrO "scope" dn.Scope)

/-- Decode `DefinedName`. -/
def decodeDefinedName : Json → Option DefinedName
  | Json.obj fs => do
      let name ← dStr (jlookup "name" fs)
      let refersTo ← dStr (jlookup "refersTo" fs)
      let scope ← dStr (jlookup "scope" fs)
      pure ⟨name, refersTo, scope⟩
  | _ => none

/-- JSON document of `FontStyle`. -/
def FontStyle.toJson (f : FontStyle) : Json :=
  Json.obj (jBoolO "bold" f.Bold ++ jBoolO "italic" f.Italic ++
    jStrO "underline" f.Underline ++ jBoolO "strike" f.Strike ++
    jStrO "family" f.Family ++ jRatO "size" f.Size ++ jStrO "color" f.Color)

/-- Decode `FontStyle`. -/
def decodeFontStyle : Json → Option FontStyle
  | Json.obj fs => do
      let bold ← dBool (jlookup "bold" fs)
      let italic ← dBool (jlookup "italic" fs)
      let underline ← dStr (jlookup "underline" fs)
      let strike ← dBool (jlookup "strike" fs)
      let family ← dStr (jlookup "family" fs)
      let size ← dRat (jlookup "size" fs)
      let color ← dStr (jlookup "color" fs)
      pure ⟨bold, italic, underline, strike, family, size, color⟩
  | _ => none

/-- JSON document of `FillStyle`. -/
def FillStyle.toJson (f : FillStyle) : Json :=
  Json.obj (jStrO "type" f.«Type» ++ jIntO "pattern" f.Pattern ++
    jArrO "color" (f.Color.map Json.str))

/-- Decode `FillStyle`. -/
def decodeFillStyle : Json → Option FillStyle
  | Json.obj fs => do
      let fillType ← dStr (jlookup "type" fs)
      let pattern ← dInt (jlookup "pattern" fs)
      let color ← dList decodeJsonStr (jlookup "color" fs)
      pure ⟨fillType, pattern, color⟩
  | _ => none

/-- JSON document of `BorderStyle`. -/
def BorderStyle.toJson (b : BorderStyle) : Json :=
  Json.obj (jStrO "type" b.«Type» ++ jStrO "color" b.Color ++
    jIntO "style" b.Style)

/-- Decode `BorderStyle`. -/
def decodeBorderStyle : Json → Option BorderStyle
  | Json.obj fs => do
      let borderType ← dStr (jlookup "type" fs)
      let color ← dStr (jlookup "color" fs)
      let style ← dInt (jlookup "style" fs)
      pure ⟨borderType, color, style⟩
  | _ => none

/-- JSON document of `AlignmentStyle`. -/
def AlignmentStyle.toJson (a : AlignmentStyle) : Json :=
  Json.obj (jStrO "horizontal" a.Horizontal ++ jStrO "vertical" a.Vertical ++
    jBoolO "wrapText" a.WrapText ++ jIntO "textRotation" a.TextRotation ++
    jIntO "indent" a.Indent ++ jBoolO "shrinkToFit" a.ShrinkToFit)

/-- Decode `AlignmentStyle`. -/
def decodeAlignmentStyle : Json → Option AlignmentStyle
  | Json.obj fs => do
      let horizontal ← dStr (jlookup "horizontal" fs)
      let vertical ← dStr (jlookup "vertical" fs)
      let wrapText ← dBool (jlookup "wrapText" fs)
      let textRotation ← dInt (jlookup "textRotation" fs)
      let indent ← dInt (jlookup "indent" fs)
      let shrinkToFit ← dBool (jlookup "shrinkToFit" fs)
      pure ⟨horizontal, vertical, wrapText, textRotation, indent, shrinkToFit⟩
  | _ => none

/-- JSON document of `Protection`. -/
def Protection.toJson (p : Protection) : Json :=
  Json.obj (jBoolO "hidden" p.Hidden ++ jBoolO "locked" p.Locked)

/-- Decode `Protection`. -/
def decodeProtection : Json → Option Protection
  | Json.obj fs => do
      let hidden ← dBool (jlookup "hidden" fs)
      let locked ← dBool (jlookup "locked" fs)
      pure ⟨hidden, locked⟩
  | _ => none

/-- JSON document of `StyleDetails`. -/
def StyleDetails.toJson (s : StyleDetails) : Json :=
  Json.obj (jOptO "font" (s.Font.map FontStyle.toJson) ++
    jOptO "fill" (s.Fill.map FillStyle.toJson) ++
    jArrO "border" (s.Border.map BorderStyle.toJson) ++
    jOptO "alignment" (s.Alignment.map AlignmentStyle.toJson) ++
    jIntO "numberFormat" s.NumberFormat ++
    jOptO "protection" (s.Protection.map Protection.toJson))

/-- Decode `StyleDetails`. -/
def decodeStyleDetails : Json → Option StyleDetails
  | Json.obj fs => do
      let font ← dOpt decodeFontStyle (jlookup "font" fs)
      let fill ← dOpt decodeFillStyle (jlookup "fill" fs)
      let border ← dList decodeBorderStyle (jlookup "border" fs)
      let alignment ← dOpt decodeAlignmentStyle (jlookup "alignment" fs)
      let numberFormat ← dInt (jlookup "numberFormat" fs)
      let protection ← dOpt decodeProtection (jlookup "protection" fs)
      pure ⟨font, fill, border, alignment, numberFormat, protection⟩
  | _ => none

/-- JSON document of `ImageFormat` (no struct tags, so Go field names). -/
def ImageFormat.toJson (f : ImageFormat) : Json :=
  Json.obj (jStr "AltText" f.AltText ++ jOptBoolNull "PrintObject" f.PrintObject ++
    jOptBoolNull "Locked" f.Locked ++ jBool "LockAspectRatio" f.LockAspectRatio ++
    jBool "AutoFit" f.AutoFit ++ jBool "AutoFitIgnoreAspect" f.AutoFitIgnoreAspect ++
    jInt "OffsetX" f.OffsetX ++ jInt "OffsetY" f.OffsetY ++
    jRat "ScaleX" f.ScaleX ++ jRat "ScaleY" f.ScaleY ++
    jStr "Hyperlink" f.Hyperlink ++ jStr "HyperlinkType" f.HyperlinkType ++
    jStr "Positioning" f.Positioning)

/-- Decode `ImageFormat`. -/
def decodeImageFormat : Json → Option ImageFormat
  | Json.obj fs => do
      let altText ← dStr (jlookup "AltText" fs)
      let printObject ← dOptBool (jlookup "PrintObject" fs)
      let locked ← dOptBool (jlookup "Locked" fs)
      let lockAspectRatio ← dBool (jlookup "LockAspectRatio" fs)
      let autoFit ← dBool (jlookup "AutoFit" fs)
      let autoFitIgnoreAspect ← dBool (jlookup "AutoFitIgnoreAspect" fs)
      let offsetX ← dInt (jlookup "OffsetX" fs)
      let offsetY ← dInt (jlookup "OffsetY" fs)
      let scaleX ← dRat (jlookup "ScaleX" fs)
      let scaleY ← dRat (jlookup "ScaleY" fs)
      let hyperlink ← dStr (jlookup "Hyperlink" fs)
      let hyperlinkType ← dStr (jlookup "HyperlinkType" fs)
      let positioning ← dStr (jlookup "Positioning" fs)
      pure ⟨altText, printObject, locked, lockAspectRatio, autoFit,
        autoFitIgnoreAspect, offsetX, offsetY, scaleX, scaleY, hyperlink,
        hyperlinkType, positioning⟩
  | _ => none

/-- JSON document of `ImageMetadata`. -/
def ImageMetadata.toJson (img : ImageMetadata) : Json :=
  Json.obj (jStr "cell" img.Cell ++ jBytes "file" img.File ++
    jStr "extension" img.Extension ++ jNat "insertType" img.InsertType ++
    jOptNull "format" (img.Format.map ImageFormat.toJson))

/-- Decode `ImageMetadata`. -/
def decodeImageMetadata : Json → Option ImageMetadata
  | Json.obj fs => do
      let cell ← dStr (jlookup "cell" fs)
      let file ← dBytes (jlookup "file" fs)
      let extension ← dStr (jlookup "extension" fs)
      let insertType ← dNat (jlookup "insertType" fs)
      let format ← dOpt decodeImageFormat (jlookup "format" fs)
      pure ⟨cell, file, extension, insertType, format⟩
  | _ => none

/-- JSON document of `SheetMetadata`. -/
def SheetMetadata.jfields (s : SheetMetadata) : List (String × Json) :=
  jInt "index" s.Index ++ jStr "name" s.Name ++ jBool "visible" s.Visible ++
  jObj "dimensions" s.Dimensions.toJson ++
  jArrO "mergedCells" (s.MergedCells.map MergedCell.toJson) ++
  jArrO "dataValidations" (s.DataValidations.map DataValidation.toJson) ++
  jOptO "protection" (s.Protection.map SheetProtection.toJson) ++
  jMapO "rowHeights" (s.RowHeights.map fun p => (intRepr p.1, Json.num p.2)) ++
  jMapO "colWidths" (s.ColWidths.map fun p => (p.1, Json.num p.2)) ++
  jArrO "cells" (s.Cells.map CellMetadata.toJson) ++
  jArrO "images" (s.Images.map ImageMetadata.toJson)

/-- JSON document of `SheetMetadata`. -/
def SheetMetadata.toJson (s : SheetMetadata) : Json := Json.obj s.jfields

/-- Decode `SheetMetadata`. -/
def decodeSheetMetadata : Json → Option SheetMetadata
  | Json.obj fs => do
      let index ← dInt (jlookup "index" fs)
      let name ← dStr (jlookup "name" fs)
      let visible ← dBool (jlookup "visible" fs)
      let dimensions ← dStruct decodeSheetDimensions SheetDimensions.zero
        (jlookup "dimensions" fs)
      let mergedCells ← dList decodeMergedCell (jlookup "mergedCells" fs)
      let dataValidations ← dList decodeDataValidation (jlookup "dataValidations" fs)
      let protection ← dOpt decodeSheetProtection (jlookup "protection" fs)
      let rowHeights ← dIntMap decodeJsonNum (jlookup "rowHeights" fs)
      let colWidths ← dStrRatMap (jlookup "colWidths" fs)
      let cells ← dList decodeCellMetadata (jlookup "cells" fs)
      let images ← dList decodeImageMetadata (jlookup "images" fs)
      pure ⟨index, name, visible, dimensions, mergedCells, dataValidations,
        protection, rowHeights, colWidths, cells, images⟩
  | _ => none

/-- JSON document of `Metadata`. Go's `json.Marshal` additionally sorts the
keys of the styles map object; key order inside a JSON object carries no
information for decoding, and the model keeps iteration order. -/
def Metadata.toJson (m : Metadata) : Json :=
  Json.obj (jStr "filename" m.Filename ++
    jObj "properties" m.Properties.toJson ++
    jArr "sheets" (m.Sheets.map SheetMetadata.toJson) ++
    jArrO "definedNames" (m.DefinedNames.map DefinedName.toJson) ++
    jMapO "styles" (m.Styles.map fun p => (intRepr p.1, StyleDetails.toJson p.2)) ++
    jTime "extractedAt" m.ExtractedAt)

/-- Decode `Metadata`. -/
def decodeMetadata : Json → Option Metadata
  | Json.obj fs => do
      let filename ← dStr (jlookup "filename" fs)
      let properties ← dStruct decodeDocumentProperties DocumentProperties.zero
        (jlookup "properties" fs)
      let sheets ← dList decodeSheetMetadata (jlookup "sheets" fs)
      let definedNames ← dList decodeDefinedName (jlookup "definedNames" fs)
      let styles ← dIntMap decodeStyleDetails (jlookup "styles" fs)
      let extractedAt ← dTime (jlookup "extractedAt" fs)
      pure ⟨filename, properties, sheets, definedNames, styles, extractedAt⟩
  | _ => none

/-! ## Rendering a JSON document to text

Compact rendering models `json.Marshal`, indented rendering models
`json.MarshalIndent(v, "", "  ")`; both render the same document, so they
decode to the same value. Number text is a stand-in that preserves the
exact value; Go additionally escapes the HTML characters, which decodes
identically. -/

/-- JSON string escaping of one character. -/
def jsonEscapeChar (c : Char) : List Char :=
  if c = '"' then ['\\', '"']
  else if c = '\\' then ['\\', '\\']
  else if c = '\n' then ['\\', 'n']
  else if c = '\r' then ['\\', 'r']
  else if c = '\t' then ['\\', 't']
  else if c.toNat < 32 then
    ['\\', 'u', '0', '0', hexDigitChar (c.toNat / 16), hexDigitChar c.toNat]
  else [c]

/-- Quoted JSON string literal. -/
def jsonQuote (s : String) : String :=
  ⟨'"' :: s.data.flatMap jsonEscapeChar ++ ['"']⟩

/-- Decimal text of an exact JSON number (integers as Go prints them; a
non-integer rational keeps its exact value in fractional notation). -/
def ratRender (q : Rat) : String :=
  if q.den = 1 then intRepr q.num
  else intRepr q.num ++ "." ++ natRepr q.den

mutual

/-- Compact rendering, as `json.Marshal`. -/
def renderJson : Json → String
  | Json.null => "null"
  | Json.bool b => if b then "true" else "false"
  | Json.num q => ratRender q
  | Json.str s => jsonQuote s
  | Json.arr xs => "[" ++ renderArr xs ++ "]"
  | Json.obj fs => "\x7b" ++ renderObj fs ++ "\x7d"

/-- Compact rendering of array elements. -/
def renderArr : List Json → String
  | [] => ""
  | [x] => renderJson x
  | x :: y :: rest => renderJson x ++ "," ++ renderArr (y :: rest)

/-- Compact rendering of object fields. -/
def renderObj : List (String × Json) → String
  | [] => ""
  | [(k, v)] => jsonQuote k ++ ":" ++ renderJson v
  | (k, v) :: f :: rest => jsonQuote k ++ ":" ++ renderJson v ++ "," ++ renderObj (f :: rest)

end

mutual

/-- Indented rendering at an indentation prefix, as `json.MarshalIndent`
with empty prefix and two-space indent. -/
def renderJsonIndent : Json → String → String
  | Json.arr [], _ => "[]"
  | Json.arr (x :: xs), ind =>
      "[\n" ++ renderArrIndent (x :: xs) (ind ++ "  ") ++ "\n" ++ ind ++ "]"
  | Json.obj [], _ => "\x7b\x7d"
  | Json.obj (f :: fs), ind =>
      "\x7b\n" ++ renderObjIndent (f :: fs) (ind ++ "  ") ++ "\n" ++ ind ++ "\x7d"
  | j, _ => renderJson j

/-- Indented rendering of array elements. -/
def renderArrIndent : List Json → String → String
  | [], _ => ""
  | [x], ind => ind ++ renderJsonIndent x ind
  | x :: y :: rest, ind =>
      ind ++ renderJsonIndent x ind ++ ",\n" ++ renderArrIndent (y :: rest) ind

/-- Indented rendering of object fields. -/
def renderObjIndent : List (String × Json) → String → String
  | [], _ => ""
  | [(k, v)], ind => ind ++ jsonQuote k ++ ": " ++ renderJsonIndent v ind
  | (k, v) :: f :: rest, ind =>
      ind ++ jsonQuote k ++ ": " ++ renderJsonIndent v ind ++ ",\n" ++
        renderObjIndent (f :: rest) ind

end

/-- ExtractToJSON extracts metadata and returns it as a JSON string; the
flag selects the indented rendering. -/
def ExtractToJSON (e : Extractor) (pretty : Bool) (now : GoTime) :
    String × Option String :=
  match Extract e now with
  | (metadata, none) =>
      (if pretty then renderJsonIndent (Metadata.toJson metadata) ""
       else renderJson (Metadata.toJson metadata), none)
  | (_, some err) => ("", some err)

/-! ## The Go source-literal encoder of ExtractToGO

The source's `marshalGo` is one recursive function dispatching on the
runtime type of its argument; the type-dependency graph of the data model
is acyclic, so the embedding gives each case arm its own definition,
bottom-up. Map arms iterate the association list in list order, standing
for Go's unspecified map iteration order. -/

/-- Go `%q` escaping of one character (modelled for ASCII content;
printable non-ASCII runes pass through, as Go prints them). -/
def goQuoteChar (c : Char) : List Char :=
  if c = '"' then ['\\', '"']
  else if c = '\\' then ['\\', '\\']
  else if c = '\n' then ['\\', 'n']
  else if c = '\r' then ['\\', 'r']
  else if c = '\t' then ['\\', 't']
  else if c.toNat = 7 then ['\\', 'a']
  else if c.toNat = 8 then ['\\', 'b']
  else if c.toNat = 11 then ['\\', 'v']
  else if c.toNat = 12 then ['\\', 'f']
  else if c.toNat < 32 ∨ c.toNat = 127 then
    ['\\', 'x', hexDigitChar (c.toNat / 16), hexDigitChar c.toNat]
  else [c]

/-- Go `%q`: a quoted, escaped Go string literal. -/
def goQuote (s : String) : String := ⟨'"' :: s.data.flatMap goQuoteChar ++ ['"']⟩

/-- Go `%v` of a bool. -/
def marshalGoBool (b : Bool) : String := if b then "true" else "false"

/-- Go `%d` of an int. -/
def marshalGoInt (i : Int) : String := intRepr i

/-- Go `%v` of a float64 (stand-in text preserving the exact value). -/
def marshalGoFloat (q : Rat) : String := ratRender q

/-- The `string` arm: `fmt.Sprintf("%q", val)`. -/
def marshalGoString (s : String) : String := goQuote s

/-- The `time.Time` arm. -/
def marshalGoTime (t : GoTime) : String :=
  "time.Date(" ++ natRepr t.Year ++ ", " ++ natRepr t.Month ++ ", " ++
    natRepr t.Day ++ ", " ++ natRepr t.Hour ++ ", " ++ natRepr t.Minute ++
    ", " ++ natRepr t.Second ++ ", " ++ natRepr t.Nanosecond ++ ", time.UTC)"

/-- One byte in Go `%#v` notation. -/
def goByteRepr (n : Nat) : String := "0x" ++ ⟨hexDigits n⟩

/-- The `[]byte` arm: `fmt.Sprintf("%#v", val)`. -/
def marshalGoBytes (val : List Nat) : String :=
  "[]byte\x7b" ++ String.intercalate ", " (val.map goByteRepr) ++ "\x7d"

/-- The `*string` arm: nil encodes to `nil`, a present pointee is printed
with `%v`, i.e. raw and unquoted. -/
def marshalGoOptString : Option String → String
  | none => "nil"
  | some s => s

/-- The `*bool` arm: nil encodes to `nil`, a present pointee with `%v`. -/
def marshalGoOptBool : Option Bool → String
  | none => "nil"
  | some b => marshalGoBool b

/-- The `map[int]float64` arm, iterating in list (Go: map) order. -/
def marshalGoRowHeights (val : List (Int × Rat)) : String :=
  match val with
  | [] => "nil"
  | _ =>
      "map[int]float64\x7b" ++
        String.join (val.map fun p =>
          marshalGoInt p.1 ++ ": " ++ marshalGoFloat p.2 ++ ", ") ++ "\x7d"

/-- The `map[string]float64` arm, iterating in list (Go: map) order. -/
def marshalGoColWidths (val : List (String × Rat)) : String :=
  match val with
  | [] => "nil"
  | _ =>
      "map[string]float64\x7b" ++
        String.join (val.map fun p =>
          goQuote p.1 ++ ": " ++ marshalGoFloat p.2 ++ ", ") ++ "\x7d"

/-- The `[]string` arm. -/
def marshalGoStringSlice (val : List String) : String :=
  match val with
  | [] => "nil"
  | _ => "[]string\x7b" ++ String.join (val.map fun v => goQuote v ++ ", ") ++ "\x7d"

/-- The `[]int` arm. -/
def marshalGoIntSlice (val : List Int) : String :=
  match val with
  | [] => "nil"
  | _ => "[]int\x7b" ++ String.join (val.map fun v => marshalGoInt v ++ ", ") ++ "\x7d"

/-- The `FontStyle` arm. -/
def marshalGoFontStyle (val : FontStyle) (indent : String) : String :=
  "excelmetadata.FontStyle\x7b\n" ++
  indent ++ "  Bold: " ++ marshalGoBool val.Bold ++ ",\n" ++
  indent ++ "  Italic: " ++ marshalGoBool val.Italic ++ ",\n" ++
  indent ++ "  Underline: " ++ marshalGoString val.Underline ++ ",\n" ++
  indent ++ "  Strike: " ++ marshalGoBool val.Strike ++ ",\n" ++
  indent ++ "  Family: " ++ marshalGoString val.Family ++ ",\n" ++
  indent ++ "  Size: " ++ marshalGoFloat val.Size ++ ",\n" ++
  indent ++ "  Color: " ++ marshalGoString val.Color ++ ",\n" ++
  indent ++ "\x7d"

/-- The `FillStyle` arm. -/
def marshalGoFillStyle (val : FillStyle) (indent : String) : String :=
  "excelmetadata.FillStyle\x7b\n" ++
  indent ++ "  Type: " ++ marshalGoString val.«Type» ++ ",\n" ++
  indent ++ "  Pattern: " ++ marshalGoInt val.Pattern ++ ",\n" ++
  indent ++ "  Color: " ++ marshalGoStringSlice val.Color ++ ",\n" ++
  indent ++ "\x7d"

/-- The `BorderStyle` arm. -/
def marshalGoBorderStyle (val : BorderStyle) (indent : String) : String :=
  "excelmetadata.BorderStyle\x7b\n" ++
  indent ++ "  Type: " ++ marshalGoString val.«Type» ++ ",\n" ++
  indent ++ "  Color: " ++ marshalGoString val.Color ++ ",\n" ++
  indent ++ "  Style: " ++ marshalGoInt val.Style ++ ",\n" ++
  indent ++ "\x7d"

/-- The `[]BorderStyle` arm. -/
def marshalGoBorderSlice (val : List BorderStyle) (indent : String) : String :=
  match val with
  | [] => "nil"
  | _ =>
      "[]excelmetadata.BorderStyle\x7b\n" ++
        String.join (val.map fun v =>
          indent ++ "  " ++ marshalGoBorderStyle v (indent ++ "  ") ++ ",\n") ++
        indent ++ "\x7d"

/-- The `AlignmentStyle` arm. -/
def marshalGoAlignmentStyle (val : AlignmentStyle) (indent : String) : String :=
  "excelmetadata.AlignmentStyle\x7b\n" ++
  indent ++ "  Horizontal: " ++ marshalGoString val.Horizontal ++ ",\n" ++
  indent ++ "  Vertical: " ++ marshalGoString val.Vertical ++ ",\n" ++
  indent ++ "  WrapText: " ++ marshalGoBool val.WrapText ++ ",\n" ++
  indent ++ "  TextRotation: " ++ marshalGoInt val.TextRotation ++ ",\n" ++
  indent ++ "  Indent: " ++ marshalGoInt val.Indent ++ ",\n" ++
  indent ++ "  ShrinkToFit: " ++ marshalGoBool val.ShrinkToFit ++ ",\n" ++
  indent ++ "\x7d"

/-- The `Protection` arm. -/
def marshalGoProtection (val : Protection) (indent : String) : String :=
  "excelmetadata.Protection\x7b\n" ++
  indent ++ "  Hidden: " ++ marshalGoBool val.Hidden ++ ",\n" ++
  indent ++ "  Locked: " ++ marshalGoBool val.Locked ++ ",\n" ++
  indent ++ "\x7d"

/-- The `StyleDetails` arm (its pointer fields go through the nil-checking
pointer arms). -/
def marshalGoStyleDetails (val : StyleDetails) (indent : String) : String :=
  "excelmetadata.StyleDetails\x7b\n" ++
  indent ++ "  Font: " ++ (match val.Font with
    | none => "nil"
    | some f => "&" ++ marshalGoFontStyle f (indent ++ "  ")) ++ ",\n" ++
  indent ++ "  Fill: " ++ (match val.Fill with
    | none => "nil"
    | some f => "&" ++ marshalGoFillStyle f (indent ++ "  ")) ++ ",\n" ++
  indent ++ "  Border: " ++ marshalGoBorderSlice val.Border (indent ++ "  ") ++ ",\n" ++
  indent ++ "  Alignment: " ++ (match val.Alignment with
    | none => "nil"
    | some a => "&" ++ marshalGoAlignmentStyle a (indent ++ "  ")) ++ ",\n" ++
  indent ++ "  NumberFormat: " ++ marshalGoInt val.NumberFormat ++ ",\n" ++
  indent ++ "  Protection: " ++ (match val.Protection with
    | none => "nil"
    | some p => "&" ++ marshalGoProtection p (indent ++ "  ")) ++ ",\n" ++
  indent ++ "\x7d"

/-- The `map[int]StyleDetails` arm, iterating in list (Go: map) order. -/
def marshalGoStylesMap (val : List (Int × StyleDetails)) (indent : String) :
    String :=
  match val with
  | [] => "nil"
  | _ =>
      "map[int]excelmetadata.StyleDetails\x7b\n" ++
        String.join (val.map fun p =>
          indent ++ "  " ++ marshalGoInt p.1 ++ ": " ++
            marshalGoStyleDetails p.2 (indent ++ "  ") ++ ",\n") ++
        indent ++ "\x7d"

/-- The `SheetDimensions` arm. -/
def marshalGoSheetDimensions (val : SheetDimensions) (indent : String) : String :=
  "excelmetadata.SheetDimensions\x7b\n" ++
  indent ++ "  StartCell: " ++ marshalGoString val.StartCell ++ ",\n" ++
  indent ++ "  EndCell: " ++ marshalGoString val.EndCell ++ ",\n" ++
  indent ++ "  RowCount: " ++ marshalGoInt val.RowCount ++ ",\n" ++
  indent ++ "  ColCount: " ++ marshalGoInt val.ColCount ++ ",\n" ++
  indent ++ "\x7d"

/-- The `MergedCell` arm. -/
def marshalGoMergedCell (val : MergedCell) (indent : String) : String :=
  "excelmetadata.MergedCell\x7b\n" ++
  indent ++ "  StartCell: " ++ marshalGoString val.StartCell ++ ",\n" ++
  indent ++ "  EndCell: " ++ marshalGoString val.EndCell ++ ",\n" ++
  indent ++ "  Value: " ++ marshalGoString val.Value ++ ",\n" ++
  indent ++ "\x7d"

/-- The `DataValidation` arm; its two `*string` fields go through the raw
`%v` pointer arm. -/
def marshalGoDataValidation (val : DataValidation) (indent : String) : String :=
  "excelmetadata.DataValidation\x7b\n" ++
  indent ++ "  Range: " ++ marshalGoString val.Range ++ ",\n" ++
  indent ++ "  Type: " ++ marshalGoString val.«Type» ++ ",\n" ++
  indent ++ "  Operator: " ++ marshalGoString val.Operator ++ ",\n" ++
  indent ++ "  Formula1: " ++ marshalGoString val.Formula1 ++ ",\n" ++
  indent ++ "  Formula2: " ++ marshalGoString val.Formula2 ++ ",\n" ++
  indent ++ "  ShowError: " ++ marshalGoBool val.ShowError ++ ",\n" ++
  indent ++ "  ErrorTitle: " ++ marshalGoOptString val.ErrorTitle ++ ",\n" ++
  indent ++ "  ErrorMessage: " ++ marshalGoOptString val.ErrorMessage ++ ",\n" ++
  indent ++ "\x7d"

/-- The `SheetProtection` arm. -/
def marshalGoSheetProtection (val : SheetProtection) (indent : String) : String :=
  "excelmetadata.SheetProtection\x7b\n" ++
  indent ++ "  Protected: " ++ marshalGoBool val.Protected ++ ",\n" ++
  indent ++ "  Password: " ++ marshalGoString val.Password ++ ",\n" ++
  indent ++ "  EditObjects: " ++ marshalGoBool val.EditObjects ++ ",\n" ++
  indent ++ "  EditScenarios: " ++ marshalGoBool val.EditScenarios ++ ",\n" ++
  indent ++ "  SelectLockedCells: " ++ marshalGoBool val.SelectLockedCells ++ ",\n" ++
  indent ++ "  SelectUnlockedCells: " ++ marshalGoBool val.SelectUnlockedCells ++ ",\n" ++
  indent ++ "\x7d"

/-- The `DefinedName` arm. -/
def marshalGoDefinedName (val : DefinedName) (indent : String) : String :=
  "excelmetadata.DefinedName\x7b\n" ++
  indent ++ "  Name: " ++ marshalGoString val.Name ++ ",\n" ++
  indent ++ "  RefersTo: " ++ marshalGoString val.RefersTo ++ ",\n" ++
  indent ++ "  Scope: " ++ marshalGoString val.Scope ++ ",\n" ++
  indent ++ "\x7d"

/-- The cell-type line of the `CellMetadata` arm:
`strings.ReplaceAll(fmt.Sprintf("excelize.CellType('%q')", string(val.Type)), "\"", "")`. -/
def cellTypeGoRepr (t : Nat) : String :=
  ⟨(("excelize.CellType('" ++ goQuote ⟨[Char.ofNat t]⟩ ++ "')").data.filter
    (fun c => c ≠ '"'))⟩

/-- The `Hyperlink` arm. -/
def marshalGoHyperlink (val : Hyperlink) (indent : String) : String :=
  "excelmetadata.Hyperlink\x7b\n" ++
  indent ++ "  Link: " ++ marshalGoString val.Link ++ ",\n" ++
  indent ++ "\x7d"

/-- The `CellMetadata` arm; its `Value` holds a string or nil interface. -/
def marshalGoCellMetadata (val : CellMetadata) (indent : String) : String :=
  "excelmetadata.CellMetadata\x7b\n" ++
  indent ++ "  Address: " ++ marshalGoString val.Address ++ ",\n" ++
  indent ++ "  Value: " ++ (match val.Value with
    | none => "nil"
    | some s => marshalGoString s) ++ ",\n" ++
  indent ++ "  Formula: " ++ marshalGoString val.Formula ++ ",\n" ++
  indent ++ "  StyleID: " ++ marshalGoInt val.StyleID ++ ",\n" ++
  indent ++ "  Type: " ++ cellTypeGoRepr val.«Type» ++ ",\n" ++
  indent ++ "  Hyperlink: " ++ (match val.Hyperlink with
    | none => "nil"
    | some h => "&" ++ marshalGoHyperlink h (indent ++ "  ")) ++ ",\n" ++
  indent ++ "\x7d"

/-- The `ImageFormat` arm; its `*bool` fields use the `%v` pointer arm. -/
def marshalGoImageFormat (val : ImageFormat) (indent : String) : String :=
  "excelmetadata.ImageFormat\x7b\n" ++
  indent ++ "  AltText: " ++ marshalGoString val.AltText ++ ",\n" ++
  indent ++ "  PrintObject: " ++ marshalGoOptBool val.PrintObject ++ ",\n" ++
  indent ++ "  Locked: " ++ marshalGoOptBool val.Locked ++ ",\n" ++
  indent ++ "  LockAspectRatio: " ++ marshalGoBool val.LockAspectRatio ++ ",\n" ++
  indent ++ "  AutoFit: " ++ marshalGoBool val.AutoFit ++ ",\n" ++
  indent ++ "  AutoFitIgnoreAspect: " ++ marshalGoBool val.AutoFitIgnoreAspect ++ ",\n" ++
  indent ++ "  OffsetX: " ++ marshalGoInt val.OffsetX ++ ",\n" ++
  indent ++ "  OffsetY: " ++ marshalGoInt val.OffsetY ++ ",\n" ++
  indent ++ "  ScaleX: " ++ marshalGoFloat val.ScaleX ++ ",\n" ++
  indent ++ "  ScaleY: " ++ marshalGoFloat val.ScaleY ++ ",\n" ++
  indent ++ "  Hyperlink: " ++ marshalGoString val.Hyperlink ++ ",\n" ++
  indent ++ "  HyperlinkType: " ++ marshalGoString val.HyperlinkType ++ ",\n" ++
  indent ++ "  Positioning: " ++ marshalGoString val.Positioning ++ ",\n" ++
  indent ++ "\x7d"

/-- The `ImageMetadata` arm; `InsertType` is printed with `%#v` of a byte,
which is its decimal text. -/
def marshalGoImageMetadata (val : ImageMetadata) (indent : String) : String :=
  "excelmetadata.ImageMetadata\x7b\n" ++
  indent ++ "  Cell: " ++ marshalGoString val.Cell ++ ",\n" ++
  indent ++ "  File: " ++ marshalGoBytes val.File ++ ",\n" ++
  indent ++ "  Extension: " ++ marshalGoString val.Extension ++ ",\n" ++
  indent ++ "  InsertType: " ++ natRepr val.InsertType ++ ",\n" ++
  indent ++ "  Format: " ++ (match val.Format with
    | none => "nil"
    | some f => "&" ++ marshalGoImageFormat f (indent ++ "  ")) ++ ",\n" ++
  indent ++ "\x7d"

/-- The `[]MergedCell` arm. -/
def marshalGoMergedCells (val : List MergedCell) (indent : String) : String :=
  match val with
  | [] => "nil"
  | _ =>
      "[]excelmetadata.MergedCell\x7b\n" ++
        String.join (val.map fun v =>
          indent ++ "  " ++ marshalGoMergedCell v (indent ++ "  ") ++ ",\n") ++
        indent ++ "\x7d"

/-- The `[]DataValidation` arm. -/
def marshalGoDataValidations (val : List DataValidation) (indent : String) : String :=
  match val with
  | [] => "nil"
  | _ =>
      "[]excelmetadata.DataValidation\x7b\n" ++
        String.join (val.map fun v =>
          indent ++ "  " ++ marshalGoDataValidation v (indent ++ "  ") ++ ",\n") ++
        indent ++ "\x7d"

/-- The `[]CellMetadata` arm. -/
def marshalGoCells (val : List CellMetadata) (indent : String) : String :=
  match val with
  | [] => "nil"
  | _ =>
      "[]excelmetadata.CellMetadata\x7b\n" ++
        String.join (val.map fun v =>
          indent ++ "  " ++ marshalGoCellMetadata v (indent ++ "  ") ++ ",\n") ++
        indent ++ "\x7d"

/-- The `[]ImageMetadata` arm. -/
def marshalGoImages (val : List ImageMetadata) (indent : String) : String :=
  match val with
  | [] => "nil"
  | _ =>
      "[]excelmetadata.ImageMetadata\x7b\n" ++
        String.join (val.map fun v =>
          indent ++ "  " ++ marshalGoImageMetadata v (indent ++ "  ") ++ ",\n") ++
        indent ++ "\x7d"

/-- The `[]DefinedName` arm. -/
def marshalGoDefinedNames (val : List DefinedName) (indent : String) : String :=
  match val with
  | [] => "nil"
  | _ =>
      "[]excelmetadata.DefinedName\x7b\n" ++
        String.join (val.map fun v =>
          indent ++ "  " ++ marshalGoDefinedName v (indent ++ "  ") ++ ",\n") ++
        indent ++ "\x7d"

/-- The `SheetMetadata` arm. -/
def marshalGoSheetMetadata (val : SheetMetadata) (indent : String) : String :=
  "excelmetadata.SheetMetadata\x7b\n" ++
  indent ++ "  Index: " ++ marshalGoInt val.Index ++ ",\n" ++
  indent ++ "  Name: " ++ marshalGoString val.Name ++ ",\n" ++
  indent ++ "  Visible: " ++ marshalGoBool val.Visible ++ ",\n" ++
  indent ++ "  Dimensions: " ++ marshalGoSheetDimensions val.Dimensions (indent ++ "  ") ++ ",\n" ++
  indent ++ "  MergedCells: " ++ marshalGoMergedCells val.MergedCells (indent ++ "  ") ++ ",\n" ++
  indent ++ "  DataValidations: " ++ marshalGoDataValidations val.DataValidations (indent ++ "  ") ++ ",\n" ++
  indent ++ "  Protection: " ++ (match val.Protection with
    | none => "nil"
    | some p => "&" ++ marshalGoSheetProtection p (indent ++ "  ")) ++ ",\n" ++
  indent ++ "  RowHeights: " ++ marshalGoRowHeights val.RowHeights ++ ",\n" ++
  indent ++ "  ColWidths: " ++ marshalGoColWidths val.ColWidths ++ ",\n" ++
  indent ++ "  Cells: " ++ marshalGoCells val.Cells (indent ++ "  ") ++ ",\n" ++
  indent ++ "  Images: " ++ marshalGoImages val.Images (indent ++ "  ") ++ ",\n" ++
  indent ++ "\x7d"

/-- The `[]SheetMetadata` arm. -/
def marshalGoSheets (val : List SheetMetadata) (indent : String) : String :=
  match val with
  | [] => "nil"
  | _ =>
      "[]excelmetadata.SheetMetadata\x7b\n" ++
        String.join (val.map fun v =>
          indent ++ "  " ++ marshalGoSheetMetadata v (indent ++ "  ") ++ ",\n") ++
        indent ++ "\x7d"

/-- The `DocumentProperties` arm. -/
def marshalGoDocumentProperties (val : DocumentProperties) (indent : String) : String :=
  "excelmetadata.DocumentProperties\x7b\n" ++
  indent ++ "  Title: " ++ marshalGoString val.Title ++ ",\n" ++
  indent ++ "  Subject: " ++ marshalGoString val.Subject ++ ",\n" ++
  indent ++ "  Creator: " ++ marshalGoString val.Creator ++ ",\n" ++
  indent ++ "  Keywords: " ++ marshalGoString val.Keywords ++ ",\n" ++
  indent ++ "  Description: " ++ marshalGoString val.Description ++ ",\n" ++
  indent ++ "  LastModifiedBy: " ++ marshalGoString val.LastModifiedBy ++ ",\n" ++
  indent ++ "  Category: " ++ marshalGoString val.Category ++ ",\n" ++
  indent ++ "  Version: " ++ marshalGoString val.Version ++ ",\n" ++
  indent ++ "  Created: " ++ marshalGoString val.Created ++ ",\n" ++
  indent ++ "  Modified: " ++ marshalGoString val.Modified ++ ",\n" ++
  indent ++ "\x7d"

/-- The `Metadata` arm. -/
def marshalGoMetadata (val : Metadata) (indent : String) : String :=
  "excelmetadata.Metadata\x7b\n" ++
  indent ++ "  Filename: " ++ marshalGoString val.Filename ++ ",\n" ++
  indent ++ "  Properties: " ++ marshalGoDocumentProperties val.Properties (indent ++ "  ") ++ ",\n" ++
  indent ++ "  Sheets: " ++ marshalGoSheets val.Sheets (indent ++ "  ") ++ ",\n" ++
  indent ++ "  DefinedNames: " ++ marshalGoDefinedNames val.DefinedNames (indent ++ "  ") ++ ",\n" ++
  indent ++ "  Styles: " ++ marshalGoStylesMap val.Styles (indent ++ "  ") ++ ",\n" ++
  indent ++ "  ExtractedAt: " ++ marshalGoTime val.ExtractedAt ++ ",\n" ++
  indent ++ "\x7d"

/-- The fixed program template around the metadata literal. -/
def goProgram (metadataLiteral : String) : String :=
  "package main\n\nimport (\n\t\"github.com/prongbang/excelmetadata\"\n\t\"github.com/prongbang/excelrecreator\"\n\t\"github.com/xuri/excelize/v2\"\n)\n\nfunc main() \x7b\n\tf := excelize.NewFile()\n\n\tmetadata := &" ++
  metadataLiteral ++
  "\n\n\treCreator := &excelrecreator.Recreator\x7b\n\t\tFile:     f,\n\t\tMetadata: metadata,\n\t\tOptions:  excelrecreator.DefaultOptions(),\n\t\tStyleMap: make(map[int]int),\n\t\x7d\n\t_ = reCreator.Recreate()\n\n\t_ = f.SaveAs(\"sample.clone.xlsx\")\n\x7d"

/-- ExtractToGO extracts metadata and returns it as a Go program text. -/
def ExtractToGO (e : Extractor) (now : GoTime) : String × Option String :=
  match Extract e now with
  | (metadata, none) => (goProgram (marshalGoMetadata metadata ""), none)
  | (_, some err) => ("", some err)

/-! ## File output dispatch -/

/-- Scan loop of Go's `path.Ext`: walk the path backwards; stop at a slash
with the empty extension, or return the suffix from the last dot. -/
def pathExtAux : List Char → List Char → String
  | [], _ => ""
  | c :: rest, suffixAcc =>
      if c = '/' then ""
      else if c = '.' then ⟨c :: suffixAcc⟩
      else pathExtAux rest (c :: suffixAcc)

/-- Go's `path.Ext`: the suffix from the final dot in the final
slash-separated element, or empty. -/
def pathExt (p : String) : String := pathExtAux p.data.reverse []

/-- Coarse model of `filepath.Dir` (the prefix before the final slash,
`"."` when there is none); no claim depends on its path cleaning. -/
def pathDir (p : String) : String :=
  match p.data.reverse.dropWhile (fun c => c ≠ '/') with
  | [] => "."
  | _ :: rest => match rest with
    | [] => "/"
    | _ => ⟨rest.reverse⟩

/-- The single write effect of a successful `ExtractToFile`: the directory
created by `MkdirAll` and the path/content handed to `WriteFile`. An error
result performs no write. -/
structure FileWrite where
  dir : String
  path : String
  data : String
deriving DecidableEq

/-- ExtractToFile dispatches on the output path's extension: `.json`
selects the interchange encoding, `.go` the literal-reconstruction
encoding, anything else is the unsupported-extension error. -/
def ExtractToFile (e : Extractor) (outputPath : String) (pretty : Bool)
    (now : GoTime) : Except String FileWrite :=
  let ext := pathExt outputPath
  if ext = ".json" then
    match ExtractToJSON e pretty now with
    | (_, some err) => Except.error err
    | (jsonStr, none) => Except.ok ⟨pathDir outputPath, outputPath, jsonStr⟩
  else if ext = ".go" then
    match ExtractToGO e now with
    | (_, some err) => Except.error err
    | (goStr, none) => Except.ok ⟨pathDir outputPath, outputPath, goStr⟩
  else Except.error ("unsupported " ++ ext ++ " file")

/-! ## Representation invariants

The embedding uses `List Nat` for Go `[]byte` and a calendar record for
`time.Time`; these carry representation invariants every Go value
satisfies by construction. -/

/-- Bytes of an image are bytes. -/
def ImageMetadata.WF (img : ImageMetadata) : Prop := ∀ b ∈ img.File, b < 256

instance (img : ImageMetadata) : Decidable img.WF := by
  unfold ImageMetadata.WF; infer_instance

/-- All images of a sheet are well-formed. -/
def SheetMetadata.WF (s : SheetMetadata) : Prop := ∀ img ∈ s.Images, img.WF

instance (s : SheetMetadata) : Decidable s.WF := by
  unfold SheetMetadata.WF; infer_instance

/-- The timestamp components are in range and all bytes are bytes. -/
def Metadata.WF (m : Metadata) : Prop :=
  m.ExtractedAt.WF ∧ ∀ s ∈ m.Sheets, s.WF

instance (m : Metadata) : Decidable m.WF := by
  unfold Metadata.WF; infer_instance

/-! ## Concrete sample workbook used by witnesses -/

/-- Raw style behind identifier 2 of the sample workbook. -/
def sampleStyle : RawStyle :=
  { NumFmt := 0
    Font := some ⟨true, false, "", false, "Arial", 12, "FF0000"⟩
    Fill := ⟨"", 0, []⟩
    Border := []
    Alignment := none
    Protection := none }

/-- Sample workbook: two sheets; `Sheet1` holds three non-empty cells
`A1="Product"`, `C1="Cat"`, `B2="100"` (with a formula on `B2`), style
identifier 2 on `A1` (which decodes) and 5 on `C1` and `B2` (whose decode
fails); `Sheet2` is empty. -/
def sampleFile : ExcelFile :=
  { sheetList := ["Sheet1", "Sheet2"]
    docProps := some ⟨"Title", "", "John", "", "", "", "", "", "", ""⟩
    definedNames := [⟨"SalesRange", "Sheet1!$A$1:$B$2", ""⟩]
    getSheetVisible := fun _ => true
    getRows := fun sheetName =>
      if sheetName = "Sheet1" then some [["Product", "", "Cat"], ["", "100"]]
      else if sheetName = "Sheet2" then some []
      else none
    getMergeCells := fun _ => some []
    getDataValidations := fun _ => some []
    getCols := fun _ => []
    getColWidth := fun _ _ => 9.140625
    getCellFormula := fun sheetName cellAddr =>
      if sheetName = "Sheet1" ∧ cellAddr = "B2" then some "SUM(C2:D2)"
      else some ""
    getCellStyle := fun sheetName cellAddr =>
      if sheetName = "Sheet1" then
        if cellAddr = "A1" then some 2
        else if cellAddr = "C1" ∨ cellAddr = "B2" then some 5
        else some 0
      else some 0
    getCellType := fun _ _ => some 0
    getCellHyperLink := fun _ _ => some (false, "")
    getStyle := fun styleID => if styleID = 2 then some sampleStyle else none
    getPictureCells := fun _ => some []
    getPictures := fun _ _ => some [] }

/-- Extractor over the sample workbook with default options. -/
def sampleExtractor : Extractor := ⟨sampleFile, "sample.xlsx", DefaultOptions⟩

/-- Extractor over the sample workbook with a cell cap of 1. -/
def cappedExtractor : Extractor :=
  ⟨sampleFile, "sample.xlsx", { DefaultOptions with MaxCellsPerSheet := 1 }⟩

/-- Concrete metadata value exercising optional fields, maps, images and a
fractional timestamp. -/
def sampleMetadata : Metadata :=
  { Filename := "sample.xlsx"
    Properties := ⟨"T", "", "J", "", "", "", "", "", "", ""⟩
    Sheets :=
      [{ Index := 0, Name := "Sheet1", Visible := true,
         Dimensions := ⟨"A1", "C2", 2, 3⟩,
         MergedCells := [⟨"A1", "B1", "Product"⟩],
         DataValidations :=
           [⟨"A1:A5", "list", "", "\"a,b\"", "", true, some "", some "bad"⟩],
         Protection := some ⟨true, "", false, true, true, false⟩,
         RowHeights := [(1, 20)],
         ColWidths := [("A", 12.5)],
         Cells := [⟨"A1", some "Product", "", 2, 0, some ⟨"https://x"⟩⟩,
                   ⟨"B2", some "100", "SUM(C2:D2)", 0, 1, none⟩],
         Images := [⟨"D4", [137, 80], "png", 1,
           some ⟨"alt", some true, none, true, false, false, 0, 10, 1, 1,
             "", "", "oneCell"⟩⟩] }]
    DefinedNames := [⟨"SalesRange", "Sheet1!$A$1:$B$2", ""⟩]
    Styles := [(2, ⟨some ⟨true, false, "", false, "Arial", 12, "FF0000"⟩,
      none, [⟨"left", "000000", 1⟩], none, 0, none⟩)]
    ExtractedAt := ⟨2025, 10, 11, 12, 30, 45, 123456789⟩ }

/-! ## Lemmas: decimal text round-trips -/

/-- Evaluation of `Char.ofNat` on small code points. -/
theorem toNat_ofNat_small : ∀ k : Nat, k < 128 → (Char.ofNat k).toNat = k := by
  decide

/-- A digit character reads back as the digit. -/
theorem digitVal_digitChar (n : Nat) : digitVal (digitChar n) = n % 10 := by
  have h : 48 + n % 10 < 128 := by omega
  simp [digitVal, digitChar, toNat_ofNat_small _ h]

/-- Digit characters satisfy `Char.isDigit`. -/
theorem isDigit_digitChar (n : Nat) : (digitChar n).isDigit = true := by
  have h : n % 10 < 10 := Nat.mod_lt _ (by omega)
  have key : ∀ k : Nat, k < 10 → (Char.ofNat (48 + k)).isDigit = true := by decide
  simpa [digitChar] using key (n % 10) h

/-- The fuel of the digit accumulator is irrelevant above the argument. -/
theorem natDigitsAux_fuel {f1 f2 n : Nat} (h1 : n < f1) (h2 : n < f2) :
    natDigitsAux f1 n = natDigitsAux f2 n := by
  induction f1 generalizing f2 n with
  | zero => omega
  | succ f1 ih =>
      cases f2 with
      | zero => omega
      | succ f2 =>
          simp only [natDigitsAux]
          by_cases h10 : n < 10
          · simp [h10]
          · have hdiv : n / 10 < n := Nat.div_lt_self (by omega) (by omega)
            simp only [h10, if_false]
            rw [ih (show n / 10 < f1 by omega) (show n / 10 < f2 by omega)]

/-- Recursive unfolding of `natDigits`. -/
theorem natDigits_eq (n : Nat) :
    natDigits n =
      if n < 10 then [digitChar n] else natDigits (n / 10) ++ [digitChar n] := by
  unfold natDigits
  simp only [natDigitsAux]
  by_cases h10 : n < 10
  · simp [h10]
  · have hdiv : n / 10 < n := Nat.div_lt_self (by omega) (by omega)
    simp only [h10, if_false]
    rw [natDigitsAux_fuel (show n / 10 < n by omega)
      (show n / 10 < n / 10 + 1 by omega)]
    simp only [natDigitsAux]

/-- Digit strings are non-empty. -/
theorem natDigits_ne_nil (n : Nat) : natDigits n ≠ [] := by
  rw [natDigits_eq]
  split <;> simp

/-- Every character of a digit string is a digit. -/
theorem all_isDigit_natDigits (n : Nat) :
    (natDigits n).all Char.isDigit = true := by
  induction n using Nat.strong_induction_on with
  | _ n ih =>
      rw [natDigits_eq]
      by_cases h : n < 10
      · simp [h, isDigit_digitChar]
      · have hdiv : n / 10 < n := Nat.div_lt_self (by omega) (by omega)
        simp [h, List.all_append, ih _ hdiv, isDigit_digitChar]

/-- Folding the digit-accumulation step over the digits of `n` recovers
`n` below the accumulated power of ten. -/
theorem foldl_natDigits (n : Nat) :
    ∀ acc : Nat, (natDigits n).foldl (fun acc c => acc * 10 + digitVal c) acc =
      acc * 10 ^ (natDigits n).length + n := by
  induction n using Nat.strong_induction_on with
  | _ n ih =>
      intro acc
      rw [natDigits_eq]
      by_cases h : n < 10
      · simp [h, digitVal_digitChar]
      · have hdiv : n / 10 < n := Nat.div_lt_self (by omega) (by omega)
        simp only [h, if_false, List.foldl_append, List.length_append,
          List.foldl_cons, List.foldl_nil, List.length_cons, List.length_nil]
        rw [ih _ hdiv acc, digitVal_digitChar]
        rw [pow_succ, ← mul_assoc]
        have hA : acc * 10 ^ (natDigits (n / 10)).length * 10 =
            (acc * 10 ^ (natDigits (n / 10)).length) * 10 := rfl
        omega

/-- Parsing the decimal digits of `n` yields `n`. -/
theorem parseNatChars_natDigits (n : Nat) :
    parseNatChars (natDigits n) = some n := by
  simp [parseNatChars, natDigits_ne_nil, all_isDigit_natDigits,
    foldl_natDigits]

/-- Digit characters are not a minus sign. -/
theorem digit_ne_minus {c : Char} (h : c.isDigit = true) : c ≠ '-' := by
  intro hc
  subst hc
  simp [Char.isDigit] at h

/-- Parsing the decimal rendering of an integer yields the integer. -/
theorem parseIntStr_intRepr (i : Int) : parseIntStr (intRepr i) = some i := by
  by_cases hneg : i < 0
  · have hdata : (intRepr i).data = '-' :: natDigits (-i).toNat := by
      unfold intRepr
      rw [if_pos hneg]
      rfl
    unfold parseIntStr
    rw [hdata]
    have hnn : (((-i).toNat : Int)) = -i := Int.toNat_of_nonneg (by omega)
    simp [parseNatChars_natDigits, hnn]
  · have hdata : (intRepr i).data = natDigits i.toNat := by
      unfold intRepr
      rw [if_neg hneg]
      rfl
    unfold parseIntStr
    rw [hdata]
    rcases hcons : natDigits i.toNat with _ | ⟨c, rest⟩
    · exact absurd hcons (natDigits_ne_nil _)
    · have hd : c.isDigit = true := by
        have hall := all_isDigit_natDigits i.toNat
        rw [hcons] at hall
        simp [List.all_cons] at hall
        exact hall.1
      have hc : ¬ c = '-' := digit_ne_minus hd
      have hp : parseNatChars (natDigits i.toNat) = some i.toNat :=
        parseNatChars_natDigits _
      rw [hcons] at hp
      have hnn : ((i.toNat : Int)) = i := Int.toNat_of_nonneg (by omega)
      simp only [hc, if_false]
      simp [hp, hnn]

/-! ## Lemmas: RFC 3339 round-trip -/

/-- Two-digit fields read back below 100. -/
theorem val2_pad2 {n : Nat} (h : n < 100) :
    val2 (digitChar (n / 10)) (digitChar n) = n := by
  simp only [val2, digitVal_digitChar]
  omega

/-- Four-digit fields read back below 10000. -/
theorem val4_pad4 {n : Nat} (h : n < 10000) :
    val4 (digitChar (n / 1000)) (digitChar (n / 100)) (digitChar (n / 10))
      (digitChar n) = n := by
  simp only [val4, digitVal_digitChar]
  omega

/-- Nine-digit fields read back below a billion. -/
theorem val9_pad9 {n : Nat} (h : n < 1000000000) :
    val9 (digitChar (n / 100000000)) (digitChar (n / 10000000))
      (digitChar (n / 1000000)) (digitChar (n / 100000)) (digitChar (n / 10000))
      (digitChar (n / 1000)) (digitChar (n / 100)) (digitChar (n / 10))
      (digitChar n) = n := by
  simp only [val9, digitVal_digitChar]
  omega

/-- Parsing the RFC 3339 rendering of a well-formed time yields the time. -/
theorem parseRFC3339_rfc3339 (t : GoTime) (h : t.WF) :
    parseRFC3339 (rfc3339 t) = some t := by
  obtain ⟨Y, Mo, D, H, Mi, S, Ns⟩ := t
  obtain ⟨hy, hmo, hd, hh, hmi, hs, hns⟩ := h
  simp only [GoTime.WF] at hy hmo hd hh hmi hs hns
  by_cases h0 : Ns = 0
  · subst h0
    unfold rfc3339 parseRFC3339
    simp only [pad4, pad2, pad9, if_pos, List.cons_append, List.nil_append,
      reduceIte]
    unfold parseFrac
    simp only [reduceIte, Option.map_some', and_self, if_true]
    simp only [Option.some.injEq, GoTime.mk.injEq]
    exact ⟨val4_pad4 hy, val2_pad2 hmo, val2_pad2 hd, val2_pad2 hh,
      val2_pad2 hmi, val2_pad2 hs, trivial⟩
  · unfold rfc3339 parseRFC3339
    simp only [pad4, pad2, pad9, h0, if_neg, if_false, List.cons_append,
      List.nil_append, List.append_assoc, reduceIte]
    unfold parseFrac
    simp only [reduceIte, Option.map_some', and_self, if_true]
    simp only [Option.some.injEq, GoTime.mk.injEq]
    exact ⟨val4_pad4 hy, val2_pad2 hmo, val2_pad2 hd, val2_pad2 hh,
      val2_pad2 hmi, val2_pad2 hs, val9_pad9 hns⟩

/-! ## Lemmas: base64 round-trip -/

/-- The base64 alphabet reads back. -/
theorem b64val_b64char : ∀ n : Nat, n < 64 → b64val (b64char n) = n := by
  decide

/-- Alphabet characters are never padding. -/
theorem b64char_ne_pad : ∀ n : Nat, n < 64 → b64char n ≠ '=' := by
  decide

/-- Base64 decoding inverts encoding on byte sequences. -/
theorem b64decode_b64encode (l : List Nat) (h : ∀ b ∈ l, b < 256) :
    b64decode (b64encode l) = some l := by
  induction l using b64encode.induct with
  | case1 => rfl
  | case2 a =>
      have ha : a < 256 := h a (by simp)
      have e1 : b64val (b64char (a / 4 % 64)) = a / 4 % 64 :=
        b64val_b64char _ (by omega)
      have e2 : b64val (b64char (a % 4 * 16)) = a % 4 * 16 :=
        b64val_b64char _ (by omega)
      unfold b64encode b64decode
      simp [e1, e2]
      omega
  | case3 a b =>
      have ha : a < 256 := h a (by simp)
      have hb : b < 256 := h b (by simp)
      have e1 : b64val (b64char (a / 4 % 64)) = a / 4 % 64 :=
        b64val_b64char _ (by omega)
      have e2 : b64val (b64char (a % 4 * 16 + b / 16)) = a % 4 * 16 + b / 16 :=
        b64val_b64char _ (by omega)
      have e3 : b64val (b64char (b % 16 * 4)) = b % 16 * 4 :=
        b64val_b64char _ (by omega)
      have n3 : b64char (b % 16 * 4) ≠ '=' := b64char_ne_pad _ (by omega)
      unfold b64encode b64decode
      simp [e1, e2, e3, n3]
      omega
  | case4 a b c rest ih =>
      have ha : a < 256 := h a (by simp)
      have hb : b < 256 := h b (by simp)
      have hc : c < 256 := h c (by simp)
      have hrest : ∀ x ∈ rest, x < 256 := fun x hx => h x (by simp [hx])
      have e1 : b64val (b64char (a / 4 % 64)) = a / 4 % 64 :=
        b64val_b64char _ (by omega)
      have e2 : b64val (b64char (a % 4 * 16 + b / 16)) = a % 4 * 16 + b / 16 :=
        b64val_b64char _ (by omega)
      have e3 : b64val (b64char (b % 16 * 4 + c / 64)) = b % 16 * 4 + c / 64 :=
        b64val_b64char _ (by omega)
      have e4 : b64val (b64char (c % 64)) = c % 64 :=
        b64val_b64char _ (by omega)
      have n3 : b64char (b % 16 * 4 + c / 64) ≠ '=' := b64char_ne_pad _ (by omega)
      have n4 : b64char (c % 64) ≠ '=' := b64char_ne_pad _ (by omega)
      unfold b64encode b64decode
      simp [e1, e2, e3, e4, n3, n4, ih hrest]
      refine ⟨by omega, by omega, by omega⟩

/-! ## Lemmas: JSON field lookup and decoding -/

/-- Lookup in the empty field list. -/
theorem jlookup_nil (k : String) : jlookup k [] = none := rfl

/-- Lookup finds a leading binding of its key. -/
theorem jlookup_cons_self (k : String) (j : Json) (rest : List (String × Json)) :
    jlookup k ((k, j) :: rest) = some j := by
  simp [jlookup]

/-- Lookup passes a leading binding of a different key. -/
theorem jlookup_cons_ne {k' k : String} (h : ¬ k' = k) (j : Json)
    (rest : List (String × Json)) :
    jlookup k ((k', j) :: rest) = jlookup k rest := by
  simp [jlookup, h]

/-- Lookup passes an omitted-or-present string field of a different key. -/
theorem jlookup_jStrO_ne {k' k : String} (h : ¬ k' = k) (s : String)
    (rest : List (String × Json)) :
    jlookup k (jStrO k' s ++ rest) = jlookup k rest := by
  unfold jStrO
  split <;> simp [jlookup, h]

/-- Terminal form of `jlookup_jStrO_ne`. -/
theorem jlookup_jStrO_ne' {k' k : String} (h : ¬ k' = k) (s : String) :
    jlookup k (jStrO k' s) = none := by
  unfold jStrO
  split <;> simp [jlookup, h]

/-- Lookup passes an omitted-or-present bool field of a different key. -/
theorem jlookup_jBoolO_ne {k' k : String} (h : ¬ k' = k) (b : Bool)
    (rest : List (String × Json)) :
    jlookup k (jBoolO k' b ++ rest) = jlookup k rest := by
  unfold jBoolO
  split <;> simp [jlookup, h]

/-- Terminal form of `jlookup_jBoolO_ne`. -/
theorem jlookup_jBoolO_ne' {k' k : String} (h : ¬ k' = k) (b : Bool) :
    jlookup k (jBoolO k' b) = none := by
  unfold jBoolO
  split <;> simp [jlookup, h]

/-- Lookup passes an omitted-or-present int field of a different key. -/
theorem jlookup_jIntO_ne {k' k : String} (h : ¬ k' = k) (i : Int)
    (rest : List (String × Json)) :
    jlookup k (jIntO k' i ++ rest) = jlookup k rest := by
  unfold jIntO
  split <;> simp [jlookup, h]

/-- Terminal form of `jlookup_jIntO_ne`. -/
theorem jlookup_jIntO_ne' {k' k : String} (h : ¬ k' = k) (i : Int) :
    jlookup k (jIntO k' i) = none := by
  unfold jIntO
  split <;> simp [jlookup, h]

/-- Lookup passes an omitted-or-present float field of a different key. -/
theorem jlookup_jRatO_ne {k' k : String} (h : ¬ k' = k) (q : Rat)
    (rest : List (String × Json)) :
    jlookup k (jRatO k' q ++ rest) = jlookup k rest := by
  unfold jRatO
  split <;> simp [jlookup, h]

/-- Lookup passes an optional string pointer field of a different key. -/
theorem jlookup_jOptStr_ne {k' k : String} (h : ¬ k' = k) (o : Option String)
    (rest : List (String × Json)) :
    jlookup k (jOptStr k' o ++ rest) = jlookup k rest := by
  cases o <;> simp [jOptStr, jlookup, h]

/-- Terminal form of `jlookup_jOptStr_ne`. -/
theorem jlookup_jOptStr_ne' {k' k : String} (h : ¬ k' = k) (o : Option String) :
    jlookup k (jOptStr k' o) = none := by
  cases o <;> simp [jOptStr, jlookup, h]

/-- Lookup passes a null-or-bool pointer field of a different key. -/
theorem jlookup_jOptBoolNull_ne {k' k : String} (h : ¬ k' = k) (o : Option Bool)
    (rest : List (String × Json)) :
    jlookup k (jOptBoolNull k' o ++ rest) = jlookup k rest := by
  cases o <;> simp [jOptBoolNull, jlookup, h]

/-- Lookup passes the cell-value field of a different key. -/
theorem jlookup_jValO_ne {k' k : String} (h : ¬ k' = k) (o : Option String)
    (rest : List (String × Json)) :
    jlookup k (jValO k' o ++ rest) = jlookup k rest := by
  cases o <;> simp [jValO, jlookup, h]

/-- Lookup passes an omitted-or-present slice field of a different key. -/
theorem jlookup_jArrO_ne {k' k : String} (h : ¬ k' = k) (xs : List Json)
    (rest : List (String × Json)) :
    jlookup k (jArrO k' xs ++ rest) = jlookup k rest := by
  cases xs <;> simp [jArrO, jlookup, h]

/-- Terminal form of `jlookup_jArrO_ne`. -/
theorem jlookup_jArrO_ne' {k' k : String} (h : ¬ k' = k) (xs : List Json) :
    jlookup k (jArrO k' xs) = none := by
  cases xs <;> simp [jArrO, jlookup, h]

/-- Lookup passes an optional struct pointer field of a different key. -/
theorem jlookup_jOptO_ne {k' k : String} (h : ¬ k' = k) (o : Option Json)
    (rest : List (String × Json)) :
    jlookup k (jOptO k' o ++ rest) = jlookup k rest := by
  cases o <;> simp [jOptO, jlookup, h]

/-- Terminal form of `jlookup_jOptO_ne`. -/
theorem jlookup_jOptO_ne' {k' k : String} (h : ¬ k' = k) (o : Option Json) :
    jlookup k (jOptO k' o) = none := by
  cases o <;> simp [jOptO, jlookup, h]

/-- Lookup passes a null-or-struct pointer field of a different key. -/
theorem jlookup_jOptNull_ne {k' k : String} (h : ¬ k' = k) (o : Option Json)
    (rest : List (String × Json)) :
    jlookup k (jOptNull k' o ++ rest) = jlookup k rest := by
  cases o <;> simp [jOptNull, jlookup, h]

/-- Terminal form of `jlookup_jOptNull_ne`. -/
theorem jlookup_jOptNull_ne' {k' k : String} (h : ¬ k' = k) (o : Option Json) :
    jlookup k (jOptNull k' o) = none := by
  cases o <;> simp [jOptNull, jlookup, h]

/-- Lookup passes an omitted-or-present map field of a different key. -/
theorem jlookup_jMapO_ne {k' k : String} (h : ¬ k' = k)
    (fs rest : List (String × Json)) :
    jlookup k (jMapO k' fs ++ rest) = jlookup k rest := by
  cases fs <;> simp [jMapO, jlookup, h]

/-! Get lemmas: decoding a field from a field list headed by its own
builder, given the key is absent in the remainder. -/

/-- Read back an always-present string field. -/
theorem dStr_jStr (k s : String) (rest : List (String × Json)) :
    dStr (jlookup k (jStr k s ++ rest)) = some s := by
  simp [jStr, jlookup_cons_self, dStr]

/-- Read back an omitted-or-present string field. -/
theorem dStr_jStrO (k s : String) (rest : List (String × Json))
    (h : jlookup k rest = none) :
    dStr (jlookup k (jStrO k s ++ rest)) = some s := by
  unfold jStrO
  by_cases hs : s = "" <;> simp [hs, jlookup_cons_self, h, dStr]

/-- Terminal form of `dStr_jStrO`. -/
theorem dStr_jStrO' (k s : String) :
    dStr (jlookup k (jStrO k s)) = some s := by
  unfold jStrO
  by_cases hs : s = "" <;> simp [hs, jlookup_cons_self, jlookup_nil, dStr]

/-- Read back an always-present bool field. -/
theorem dBool_jBool (k : String) (b : Bool) (rest : List (String × Json)) :
    dBool (jlookup k (jBool k b ++ rest)) = some b := by
  simp [jBool, jlookup_cons_self, dBool]

/-- Read back an omitted-or-present bool field. -/
theorem dBool_jBoolO (k : String) (b : Bool) (rest : List (String × Json))
    (h : jlookup k rest = none) :
    dBool (jlookup k (jBoolO k b ++ rest)) = some b := by
  cases b <;> simp [jBoolO, jlookup_cons_self, h, dBool]

/-- Terminal form of `dBool_jBoolO`. -/
theorem dBool_jBoolO' (k : String) (b : Bool) :
    dBool (jlookup k (jBoolO k b)) = some b := by
  cases b <;> simp [jBoolO, jlookup_cons_self, jlookup_nil, dBool]

/-- Read back an always-present int field. -/
theorem dInt_jInt (k : String) (i : Int) (rest : List (String × Json)) :
    dInt (jlookup k (jInt k i ++ rest)) = some i := by
  simp [jInt, jlookup_cons_self, dInt, Rat.den_intCast, Rat.num_intCast]

/-- Read back an omitted-or-present int field. -/
theorem dInt_jIntO (k : String) (i : Int) (rest : List (String × Json))
    (h : jlookup k rest = none) :
    dInt (jlookup k (jIntO k i ++ rest)) = some i := by
  unfold jIntO
  by_cases hi : i = 0 <;>
    simp [hi, jlookup_cons_self, h, dInt, Rat.den_intCast, Rat.num_intCast]

/-- Terminal form of `dInt_jIntO`. -/
theorem dInt_jIntO' (k : String) (i : Int) :
    dInt (jlookup k (jIntO k i)) = some i := by
  unfold jIntO
  by_cases hi : i = 0 <;>
    simp [hi, jlookup_cons_self, jlookup_nil, dInt, Rat.den_intCast,
      Rat.num_intCast]

/-- Read back a byte-sized unsigned integer field. -/
theorem dNat_jNat (k : String) (n : Nat) (rest : List (String × Json)) :
    dNat (jlookup k (jNat k n ++ rest)) = some n := by
  simp [jNat, jlookup_cons_self, dNat, Rat.den_natCast, Rat.num_natCast]

/-- Read back an always-present float field. -/
theorem dRat_jRat (k : String) (q : Rat) (rest : List (String × Json)) :
    dRat (jlookup k (jRat k q ++ rest)) = some q := by
  simp [jRat, jlookup_cons_self, dRat]

/-- Read back an omitted-or-present float field. -/
theorem dRat_jRatO (k : String) (q : Rat) (rest : List (String × Json))
    (h : jlookup k rest = none) :
    dRat (jlookup k (jRatO k q ++ rest)) = some q := by
  unfold jRatO
  by_cases hq : q = 0 <;> simp [hq, jlookup_cons_self, h, dRat]

/-- Read back an optional string pointer field. -/
theorem dOptStr_jOptStr (k : String) (o : Option String)
    (rest : List (String × Json)) (h : jlookup k rest = none) :
    dOptStr (jlookup k (jOptStr k o ++ rest)) = some o := by
  cases o <;> simp [jOptStr, jlookup_cons_self, h, dOptStr]

/-- Terminal form of `dOptStr_jOptStr`. -/
theorem dOptStr_jOptStr' (k : String) (o : Option String) :
    dOptStr (jlookup k (jOptStr k o)) = some o := by
  cases o <;> simp [jOptStr, jlookup_cons_self, jlookup_nil, dOptStr]

/-- Read back a null-or-bool pointer field. -/
theorem dOptBool_jOptBoolNull (k : String) (o : Option Bool)
    (rest : List (String × Json)) :
    dOptBool (jlookup k (jOptBoolNull k o ++ rest)) = some o := by
  cases o <;> simp [jOptBoolNull, jlookup_cons_self, dOptBool]

/-- Read back the cell-value field. -/
theorem dVal_jValO (k : String) (o : Option String)
    (rest : List (String × Json)) (h : jlookup k rest = none) :
    dVal (jlookup k (jValO k o ++ rest)) = some o := by
  cases o <;> simp [jValO, jlookup_cons_self, h, dVal]

/-- Element-wise decoding of an encoded list. -/
theorem mapM_map_of_forall {β : Type} (dec : β → Option α) (enc : α → β)
    (l : List α) (h : ∀ x ∈ l, dec (enc x) = some x) :
    (l.map enc).mapM dec = some l := by
  induction l with
  | nil => rfl
  | cons x xs ih =>
      simp only [List.map_cons, List.mapM_cons, h x (by simp),
        ih fun y hy => h y (by simp [hy])]
      rfl

/-- Read back an always-present slice field. -/
theorem dList_jArr (dec : Json → Option α) (enc : α → Json) (k : String)
    (l : List α) (rest : List (String × Json))
    (helem : ∀ x ∈ l, dec (enc x) = some x) :
    dList dec (jlookup k (jArr k (l.map enc) ++ rest)) = some l := by
  simp only [jArr, List.singleton_append, jlookup_cons_self, dList]
  exact mapM_map_of_forall dec enc l helem

/-- Read back an omitted-or-present slice field. -/
theorem dList_jArrO (dec : Json → Option α) (enc : α → Json) (k : String)
    (l : List α) (rest : List (String × Json)) (h : jlookup k rest = none)
    (helem : ∀ x ∈ l, dec (enc x) = some x) :
    dList dec (jlookup k (jArrO k (l.map enc) ++ rest)) = some l := by
  cases l with
  | nil => simp [jArrO, h, dList]
  | cons x xs =>
      simp only [List.map_cons, jArrO, List.cons_append, jlookup_cons_self,
        dList]
      rw [show ((enc x :: xs.map enc).mapM dec) =
        ((x :: xs).map enc).mapM dec by simp]
      exact mapM_map_of_forall dec enc (x :: xs) helem

/-- Terminal form of `dList_jArrO`. -/
theorem dList_jArrO' (dec : Json → Option α) (enc : α → Json) (k : String)
    (l : List α) (helem : ∀ x ∈ l, dec (enc x) = some x) :
    dList dec (jlookup k (jArrO k (l.map enc))) = some l := by
  cases l with
  | nil => simp [jArrO, dList, jlookup_nil]
  | cons x xs =>
      simp only [List.map_cons, jArrO, jlookup_cons_self, dList]
      rw [show ((enc x :: xs.map enc).mapM dec) =
        ((x :: xs).map enc).mapM dec by simp]
      exact mapM_map_of_forall dec enc (x :: xs) helem

/-- Decoding a present non-null pointer field applies the decoder. -/
theorem dOpt_some_of_ne_null (dec : Json → Option α) {j : Json}
    (h : j ≠ Json.null) : dOpt dec (some j) = (dec j).map some := by
  cases j <;> simp [dOpt] at h ⊢

/-- Read back an optional struct pointer field. -/
theorem dOpt_jOptO (dec : Json → Option α) (enc : α → Json) (k : String)
    (o : Option α) (rest : List (String × Json)) (h : jlookup k rest = none)
    (helem : ∀ x ∈ o, dec (enc x) = some x)
    (honull : ∀ x ∈ o, enc x ≠ Json.null) :
    dOpt dec (jlookup k (jOptO k (o.map enc) ++ rest)) = some o := by
  cases o with
  | none => simp [jOptO, h, dOpt]
  | some x =>
      have hx := helem x (by simp)
      have hn := honull x (by simp)
      simp [jOptO, jlookup_cons_self, dOpt_some_of_ne_null dec hn, hx]

/-- Terminal form of `dOpt_jOptO`. -/
theorem dOpt_jOptO' (dec : Json → Option α) (enc : α → Json) (k : String)
    (o : Option α) (helem : ∀ x ∈ o, dec (enc x) = some x)
    (honull : ∀ x ∈ o, enc x ≠ Json.null) :
    dOpt dec (jlookup k (jOptO k (o.map enc))) = some o := by
  cases o with
  | none => simp [jOptO, dOpt, jlookup_nil]
  | some x =>
      have hx := helem x (by simp)
      have hn := honull x (by simp)
      simp [jOptO, jlookup_cons_self, dOpt_some_of_ne_null dec hn, hx]

/-- Read back a null-or-struct pointer field. -/
theorem dOpt_jOptNull (dec : Json → Option α) (enc : α → Json) (k : String)
    (o : Option α) (rest : List (String × Json))
    (helem : ∀ x ∈ o, dec (enc x) = some x)
    (honull : ∀ x ∈ o, enc x ≠ Json.null) :
    dOpt dec (jlookup k (jOptNull k (o.map enc) ++ rest)) = some o := by
  cases o with
  | none => simp [jOptNull, jlookup_cons_self, dOpt]
  | some x =>
      have hx := helem x (by simp)
      have hn := honull x (by simp)
      simp [jOptNull, jlookup_cons_self, dOpt_some_of_ne_null dec hn, hx]

/-- Terminal form of `dOpt_jOptNull`. -/
theorem dOpt_jOptNull' (dec : Json → Option α) (enc : α → Json) (k : String)
    (o : Option α) (helem : ∀ x ∈ o, dec (enc x) = some x)
    (honull : ∀ x ∈ o, enc x ≠ Json.null) :
    dOpt dec (jlookup k (jOptNull k (o.map enc))) = some o := by
  cases o with
  | none => simp [jOptNull, jlookup_cons_self, dOpt]
  | some x =>
      have hx := helem x (by simp)
      have hn := honull x (by simp)
      simp [jOptNull, jlookup_cons_self, dOpt_some_of_ne_null dec hn, hx]

/-- Read back an always-present nested struct field. -/
theorem dStruct_jObj (dec : Json → Option α) (dflt : α) (k : String)
    (j : Json) (rest : List (String × Json)) :
    dStruct dec dflt (jlookup k (jObj k j ++ rest)) = dec j := by
  simp [jObj, jlookup_cons_self, dStruct]

/-- Read back a `[]byte` field. -/
theorem dBytes_jBytes (k : String) (bytes : List Nat)
    (rest : List (String × Json)) (h : ∀ b ∈ bytes, b < 256) :
    dBytes (jlookup k (jBytes k bytes ++ rest)) = some bytes := by
  simp [jBytes, jlookup_cons_self, dBytes, b64decode_b64encode bytes h]

/-- Read back a `time.Time` field. -/
theorem dTime_jTime (k : String) (t : GoTime) (h : t.WF) :
    dTime (jlookup k (jTime k t)) = some t := by
  simp [jTime, jlookup_cons_self, dTime, parseRFC3339_rfc3339 t h]

/-- Element-wise decoding of an encoded int-keyed map. -/
theorem mapM_intMap (dec : Json → Option α) (enc : α → Json)
    (l : List (Int × α)) (helem : ∀ p ∈ l, dec (enc p.2) = some p.2) :
    ((l.map fun p => (intRepr p.1, enc p.2)).mapM fun p => do
      let key ← parseIntStr p.1
      let v ← dec p.2
      pure (key, v)) = some l := by
  apply mapM_map_of_forall
  intro p hp
  simp [parseIntStr_intRepr, helem p hp]

/-- Read back an int-keyed map field. -/
theorem dIntMap_jMapO (dec : Json → Option α) (enc : α → Json) (k : String)
    (l : List (Int × α)) (rest : List (String × Json))
    (h : jlookup k rest = none) (helem : ∀ p ∈ l, dec (enc p.2) = some p.2) :
    dIntMap dec (jlookup k
      (jMapO k (l.map fun p => (intRepr p.1, enc p.2)) ++ rest)) = some l := by
  cases l with
  | nil => simp [jMapO, h, dIntMap]
  | cons p ps =>
      simp only [List.map_cons, jMapO, List.cons_append, jlookup_cons_self,
        dIntMap]
      have hm := mapM_intMap dec enc (p :: ps) helem
      simp only [List.map_cons] at hm
      exact hm

/-- Read back a string-keyed float map field. -/
theorem dStrRatMap_jMapO (k : String) (l : List (String × Rat))
    (rest : List (String × Json)) (h : jlookup k rest = none) :
    dStrRatMap (jlookup k
      (jMapO k (l.map fun p => (p.1, Json.num p.2)) ++ rest)) = some l := by
  cases l with
  | nil => simp [jMapO, h, dStrRatMap]
  | cons p ps =>
      simp only [List.map_cons, jMapO, List.cons_append, jlookup_cons_self,
        dStrRatMap]
      have hm : ∀ m : List (String × Rat),
          ((m.map fun p => (p.1, Json.num p.2)).mapM fun q =>
            match q.2 with
            | Json.num x => some (q.1, x)
            | _ => none) = some m := by
        intro m
        apply mapM_map_of_forall
        intro x _
        simp
      have hcons := hm (p :: ps)
      simp only [List.map_cons] at hcons
      exact hcons

/-! Skip lemmas for the always-present builders. -/

/-- Lookup passes an always-present string field of a different key. -/
theorem jlookup_jStr_ne {k' k : String} (h : ¬ k' = k) (s : String)
    (rest : List (String × Json)) :
    jlookup k (jStr k' s ++ rest) = jlookup k rest := by
  simp [jStr, jlookup, h]

/-- Terminal form of `jlookup_jStr_ne`. -/
theorem jlookup_jStr_ne' {k' k : String} (h : ¬ k' = k) (s : String) :
    jlookup k (jStr k' s) = none := by
  simp [jStr, jlookup, h]

/-- Lookup passes an always-present bool field of a different key. -/
theorem jlookup_jBool_ne {k' k : String} (h : ¬ k' = k) (b : Bool)
    (rest : List (String × Json)) :
    jlookup k (jBool k' b ++ rest) = jlookup k rest := by
  simp [jBool, jlookup, h]

/-- Terminal form of `jlookup_jBool_ne`. -/
theorem jlookup_jBool_ne' {k' k : String} (h : ¬ k' = k) (b : Bool) :
    jlookup k (jBool k' b) = none := by
  simp [jBool, jlookup, h]

/-- Lookup passes an always-present int field of a different key. -/
theorem jlookup_jInt_ne {k' k : String} (h : ¬ k' = k) (i : Int)
    (rest : List (String × Json)) :
    jlookup k (jInt k' i ++ rest) = jlookup k rest := by
  simp [jInt, jlookup, h]

/-- Terminal form of `jlookup_jInt_ne`. -/
theorem jlookup_jInt_ne' {k' k : String} (h : ¬ k' = k) (i : Int) :
    jlookup k (jInt k' i) = none := by
  simp [jInt, jlookup, h]

/-- Lookup passes a byte-sized unsigned integer field of a different key. -/
theorem jlookup_jNat_ne {k' k : String} (h : ¬ k' = k) (n : Nat)
    (rest : List (String × Json)) :
    jlookup k (jNat k' n ++ rest) = jlookup k rest := by
  simp [jNat, jlookup, h]

/-- Lookup passes an always-present float field of a different key. -/
theorem jlookup_jRat_ne {k' k : String} (h : ¬ k' = k) (q : Rat)
    (rest : List (String × Json)) :
    jlookup k (jRat k' q ++ rest) = jlookup k rest := by
  simp [jRat, jlookup, h]

/-- Lookup passes a nested struct field of a different key. -/
theorem jlookup_jObj_ne {k' k : String} (h : ¬ k' = k) (j : Json)
    (rest : List (String × Json)) :
    jlookup k (jObj k' j ++ rest) = jlookup k rest := by
  simp [jObj, jlookup, h]

/-- Lookup passes a `[]byte` field of a different key. -/
theorem jlookup_jBytes_ne {k' k : String} (h : ¬ k' = k) (bytes : List Nat)
    (rest : List (String × Json)) :
    jlookup k (jBytes k' bytes ++ rest) = jlookup k rest := by
  simp [jBytes, jlookup, h]

/-- Terminal form of `jlookup_jTime_ne`: a timestamp field of a different
key hides nothing. -/
theorem jlookup_jTime_ne' {k' k : String} (h : ¬ k' = k) (t : GoTime) :
    jlookup k (jTime k' t) = none := by
  simp [jTime, jlookup, h]

/-- Terminal form of `dStr_jStr`. -/
theorem dStr_jStr' (k s : String) : dStr (jlookup k (jStr k s)) = some s := by
  simp [jStr, jlookup_cons_self, dStr]

/-- Terminal form of `dBool_jBool`. -/
theorem dBool_jBool' (k : String) (b : Bool) :
    dBool (jlookup k (jBool k b)) = some b := by
  simp [jBool, jlookup_cons_self, dBool]

/-- Terminal form of `dInt_jInt`. -/
theorem dInt_jInt' (k : String) (i : Int) :
    dInt (jlookup k (jInt k i)) = some i := by
  simp [jInt, jlookup_cons_self, dInt, Rat.den_intCast, Rat.num_intCast]

/-! ## Lemmas: per-record JSON round-trips -/

/-- Round-trip for `FontStyle`. -/
theorem fontStyle_rt (f : FontStyle) : decodeFontStyle f.toJson = some f := by
  obtain ⟨b, i, u, st, fam, sz, col⟩ := f
  simp only [FontStyle.toJson, decodeFontStyle, List.append_assoc,
    String.reduceEq, ne_eq, not_false_eq_true, dBool_jBoolO, dStr_jStrO,
    dRat_jRatO, dStr_jStrO', jlookup_jBoolO_ne, jlookup_jStrO_ne,
    jlookup_jRatO_ne, jlookup_jStrO_ne', Option.some_bind]
  rfl

/-- Round-trip for `DocumentProperties`. -/
theorem documentProperties_rt (p : DocumentProperties) :
    decodeDocumentProperties p.toJson = some p := by
  obtain ⟨f1, f2, f3, f4, f5, f6, f7, f8, f9, f10⟩ := p
  simp only [DocumentProperties.toJson, DocumentProperties.jfields,
    decodeDocumentProperties, List.append_assoc, String.reduceEq, ne_eq,
    not_false_eq_true, dStr_jStrO, dStr_jStrO', jlookup_jStrO_ne,
    jlookup_jStrO_ne', Option.some_bind]
  rfl

/-- Round-trip for `SheetDimensions`. -/
theorem sheetDimensions_rt (d : SheetDimensions) :
    decodeSheetDimensions d.toJson = some d := by
  obtain ⟨sc, ec, rc, cc⟩ := d
  simp only [SheetDimensions.toJson, decodeSheetDimensions, List.append_assoc,
    String.reduceEq, ne_eq, not_false_eq_true, dStr_jStr, dInt_jInt,
    dInt_jInt', jlookup_jStr_ne, jlookup_jInt_ne, jlookup_jInt_ne',
    Option.some_bind]
  rfl

/-- Round-trip for `Hyperlink`. -/
theorem hyperlink_rt (h : Hyperlink) : decodeHyperlink h.toJson = some h := by
  obtain ⟨link⟩ := h
  simp only [Hyperlink.toJson, decodeHyperlink, dStr_jStr', Option.map_some']

/-- Round-trip for `MergedCell`. -/
theorem mergedCell_rt (mc : MergedCell) :
    decodeMergedCell mc.toJson = some mc := by
  obtain ⟨sc, ec, v⟩ := mc
  simp only [MergedCell.toJson, decodeMergedCell, List.append_assoc,
    String.reduceEq, ne_eq, not_false_eq_true, dStr_jStr, dStr_jStrO',
    jlookup_jStr_ne, jlookup_jStrO_ne', Option.some_bind]
  rfl

/-- Round-trip for `DataValidation`. -/
theorem dataValidation_rt (dv : DataValidation) :
    decodeDataValidation dv.toJson = some dv := by
  obtain ⟨r, ty, op, f1, f2, se, et, em⟩ := dv
  simp only [DataValidation.toJson, decodeDataValidation, List.append_assoc,
    String.reduceEq, ne_eq, not_false_eq_true, dStr_jStr, dStr_jStrO,
    dBool_jBool, dOptStr_jOptStr, dOptStr_jOptStr', jlookup_jStr_ne,
    jlookup_jStrO_ne, jlookup_jBool_ne, jlookup_jOptStr_ne,
    jlookup_jOptStr_ne', Option.some_bind]
  rfl

/-- Round-trip for `SheetProtection`. -/
theorem sheetProtection_rt (sp : SheetProtection) :
    decodeSheetProtection sp.toJson = some sp := by
  obtain ⟨p, pw, eo, es, sl, su⟩ := sp
  simp only [SheetProtection.toJson, decodeSheetProtection, List.append_assoc,
    String.reduceEq, ne_eq, not_false_eq_true, dBool_jBool, dBool_jBool',
    dStr_jStrO, jlookup_jBool_ne, jlookup_jBool_ne', jlookup_jStrO_ne,
    Option.some_bind]
  rfl

/-- Round-trip for `DefinedName`. -/
theorem definedName_rt (dn : DefinedName) :
    decodeDefinedName dn.toJson = some dn := by
  obtain ⟨n, r, sc⟩ := dn
  simp only [DefinedName.toJson, decodeDefinedName, List.append_assoc,
    String.reduceEq, ne_eq, not_false_eq_true, dStr_jStr, dStr_jStrO',
    jlookup_jStr_ne, jlookup_jStrO_ne', Option.some_bind]
  rfl

/-- Round-trip for `Protection`. -/
theorem protection_rt (p : Protection) : decodeProtection p.toJson = some p := by
  obtain ⟨h, l⟩ := p
  simp only [Protection.toJson, decodeProtection, List.append_assoc,
    String.reduceEq, ne_eq, not_false_eq_true, dBool_jBoolO, dBool_jBoolO',
    jlookup_jBoolO_ne, jlookup_jBoolO_ne', Option.some_bind]
  rfl

/-- Round-trip for `AlignmentStyle`. -/
theorem alignmentStyle_rt (a : AlignmentStyle) :
    decodeAlignmentStyle a.toJson = some a := by
  obtain ⟨h, v, w, t, ind, sh⟩ := a
  simp only [AlignmentStyle.toJson, decodeAlignmentStyle, List.append_assoc,
    String.reduceEq, ne_eq, not_false_eq_true, dStr_jStrO, dBool_jBoolO,
    dBool_jBoolO', dInt_jIntO, jlookup_jStrO_ne, jlookup_jBoolO_ne,
    jlookup_jBoolO_ne', jlookup_jIntO_ne, Option.some_bind]
  rfl

/-- Round-trip for `BorderStyle`. -/
theorem borderStyle_rt (b : BorderStyle) :
    decodeBorderStyle b.toJson = some b := by
  obtain ⟨t, c, st⟩ := b
  simp only [BorderStyle.toJson, decodeBorderStyle, List.append_assoc,
    String.reduceEq, ne_eq, not_false_eq_true, dStr_jStrO, dInt_jIntO',
    jlookup_jStrO_ne, jlookup_jIntO_ne', Option.some_bind]
  rfl

/-- Round-trip for `FillStyle`. -/
theorem fillStyle_rt (f : FillStyle) : decodeFillStyle f.toJson = some f := by
  obtain ⟨t, p, c⟩ := f
  have hc : dList decodeJsonStr
      (jlookup "color" (jArrO "color" (c.map Json.str))) = some c :=
    dList_jArrO' decodeJsonStr Json.str "color" c fun x _ => rfl
  simp only [FillStyle.toJson, decodeFillStyle, List.append_assoc,
    String.reduceEq, ne_eq, not_false_eq_true, dStr_jStrO, dInt_jIntO,
    jlookup_jStrO_ne, jlookup_jIntO_ne, jlookup_jArrO_ne, jlookup_jArrO_ne',
    hc, Option.some_bind]
  rfl

/-- Round-trip for `ImageFormat`. -/
theorem imageFormat_rt (f : ImageFormat) :
    decodeImageFormat f.toJson = some f := by
  obtain ⟨a1, a2, a3, a4, a5, a6, a7, a8, a9, a10, a11, a12, a13⟩ := f
  simp only [ImageFormat.toJson, decodeImageFormat, List.append_assoc,
    String.reduceEq, ne_eq, not_false_eq_true, dStr_jStr, dStr_jStr',
    dOptBool_jOptBoolNull, dBool_jBool, dInt_jInt, dRat_jRat,
    jlookup_jStr_ne, jlookup_jStr_ne', jlookup_jOptBoolNull_ne,
    jlookup_jBool_ne, jlookup_jInt_ne, jlookup_jRat_ne, Option.some_bind]
  rfl

/-- Round-trip for `StyleDetails`. -/
theorem styleDetails_rt (s : StyleDetails) :
    decodeStyleDetails s.toJson = some s := by
  obtain ⟨fo, fi, bo, al, nf, pr⟩ := s
  have hfo : ∀ x : FontStyle, decodeFontStyle x.toJson = some x := fontStyle_rt
  have hfon : ∀ x : FontStyle, x.toJson ≠ Json.null := fun x => by
    simp [FontStyle.toJson]
  have hfi : ∀ x : FillStyle, decodeFillStyle x.toJson = some x := fillStyle_rt
  have hfin : ∀ x : FillStyle, x.toJson ≠ Json.null := fun x => by
    simp [FillStyle.toJson]
  have hbo : ∀ x : BorderStyle, decodeBorderStyle x.toJson = some x :=
    borderStyle_rt
  have hal : ∀ x : AlignmentStyle, decodeAlignmentStyle x.toJson = some x :=
    alignmentStyle_rt
  have haln : ∀ x : AlignmentStyle, x.toJson ≠ Json.null := fun x => by
    simp [AlignmentStyle.toJson]
  have hpr : ∀ x : Protection, decodeProtection x.toJson = some x :=
    protection_rt
  have hprn : ∀ x : Protection, x.toJson ≠ Json.null := fun x => by
    simp [Protection.toJson]
  simp only [StyleDetails.toJson, decodeStyleDetails, List.append_assoc,
    String.reduceEq, ne_eq, not_false_eq_true, dOpt_jOptO, dOpt_jOptO',
    dList_jArrO, dInt_jIntO, jlookup_jOptO_ne, jlookup_jOptO_ne',
    jlookup_jArrO_ne, jlookup_jIntO_ne, hfo, hfon, hfi, hfin, hbo, hal,
    haln, hpr, hprn, eq_self_iff_true, implies_true, Option.some_bind]
  rfl

/-- Round-trip for `CellMetadata`. -/
theorem cellMetadata_rt (c : CellMetadata) :
    decodeCellMetadata c.toJson = some c := by
  obtain ⟨addr, v, form, sid, ty, hyp⟩ := c
  have hh : ∀ x : Hyperlink, decodeHyperlink x.toJson = some x := hyperlink_rt
  have hhn : ∀ x : Hyperlink, x.toJson ≠ Json.null := fun x => by
    simp [Hyperlink.toJson]
  simp only [CellMetadata.toJson, decodeCellMetadata, List.append_assoc,
    String.reduceEq, ne_eq, not_false_eq_true, dStr_jStr, dVal_jValO,
    dStr_jStrO, dInt_jIntO, dNat_jNat, dOpt_jOptO', jlookup_jStr_ne,
    jlookup_jValO_ne, jlookup_jStrO_ne, jlookup_jIntO_ne, jlookup_jNat_ne,
    jlookup_jOptO_ne', hh, hhn, eq_self_iff_true, implies_true,
    Option.some_bind]
  rfl

/-- Round-trip for `ImageMetadata`. -/
theorem imageMetadata_rt (img : ImageMetadata) (hWF : img.WF) :
    decodeImageMetadata img.toJson = some img := by
  obtain ⟨cell, file, ext, it, fmt⟩ := img
  have hW : ∀ b ∈ file, b < 256 := hWF
  have hf : ∀ x : ImageFormat, decodeImageFormat x.toJson = some x :=
    imageFormat_rt
  have hfn : ∀ x : ImageFormat, x.toJson ≠ Json.null := fun x => by
    simp [ImageFormat.toJson]
  have hfile : dBytes (jlookup "file" (jBytes "file" file ++
      (jStr "extension" ext ++ (jNat "insertType" it ++
        jOptNull "format" (fmt.map ImageFormat.toJson))))) = some file :=
    dBytes_jBytes _ _ _ hW
  simp only [ImageMetadata.toJson, decodeImageMetadata, List.append_assoc,
    String.reduceEq, ne_eq, not_false_eq_true, dStr_jStr, dNat_jNat,
    dOpt_jOptNull', jlookup_jStr_ne, jlookup_jBytes_ne, jlookup_jNat_ne,
    jlookup_jOptNull_ne', hfile, hf, hfn, eq_self_iff_true, implies_true,
    Option.some_bind]
  rfl

/-- Lookup passes an always-present slice field of a different key. -/
theorem jlookup_jArr_ne {k' k : String} (h : ¬ k' = k) (xs : List Json)
    (rest : List (String × Json)) :
    jlookup k (jArr k' xs ++ rest) = jlookup k rest := by
  simp [jArr, jlookup, h]

/-- Round-trip for `SheetMetadata`. -/
theorem sheetMetadata_rt (s : SheetMetadata) (hWF : s.WF) :
    decodeSheetMetadata s.toJson = some s := by
  obtain ⟨idx, nm, vis, dims, mcs, dvs, prot, rhs, cws, cls, imgs⟩ := s
  have hdim : ∀ x : SheetDimensions, decodeSheetDimensions x.toJson = some x :=
    sheetDimensions_rt
  have hmc : ∀ x : MergedCell, decodeMergedCell x.toJson = some x :=
    mergedCell_rt
  have hdv : ∀ x : DataValidation, decodeDataValidation x.toJson = some x :=
    dataValidation_rt
  have hsp : ∀ x : SheetProtection, decodeSheetProtection x.toJson = some x :=
    sheetProtection_rt
  have hspn : ∀ x : SheetProtection, x.toJson ≠ Json.null := fun x => by
    simp [SheetProtection.toJson]
  have hcm : ∀ x : CellMetadata, decodeCellMetadata x.toJson = some x :=
    cellMetadata_rt
  have himgs : ∀ x ∈ imgs, decodeImageMetadata x.toJson = some x :=
    fun x hx => imageMetadata_rt x (hWF x hx)
  have himg_get : dList decodeImageMetadata
      (jlookup "images" (jArrO "images" (imgs.map ImageMetadata.toJson))) =
        some imgs :=
    dList_jArrO' decodeImageMetadata ImageMetadata.toJson "images" imgs himgs
  simp only [SheetMetadata.toJson, SheetMetadata.jfields, decodeSheetMetadata,
    List.append_assoc, String.reduceEq, ne_eq, not_false_eq_true,
    dInt_jInt, dStr_jStr, dBool_jBool, dStruct_jObj, dList_jArrO, dOpt_jOptO,
    dIntMap_jMapO, dStrRatMap_jMapO, himg_get,
    jlookup_jInt_ne, jlookup_jStr_ne, jlookup_jBool_ne, jlookup_jObj_ne,
    jlookup_jArrO_ne, jlookup_jArrO_ne', jlookup_jOptO_ne, jlookup_jMapO_ne,
    hdim, hmc, hdv, hsp, hspn, hcm, decodeJsonNum,
    eq_self_iff_true, implies_true, Option.some_bind]
  rfl

/-- Round-trip for `Metadata`. -/
theorem metadata_rt (m : Metadata) (hWF : m.WF) :
    decodeMetadata m.toJson = some m := by
  obtain ⟨fn, props, sheets, dns, styles, ts⟩ := m
  obtain ⟨hts, hsh⟩ := hWF
  have hp : ∀ x : DocumentProperties,
      decodeDocumentProperties x.toJson = some x := documentProperties_rt
  have hdn : ∀ x : DefinedName, decodeDefinedName x.toJson = some x :=
    definedName_rt
  have hsd : ∀ x : StyleDetails, decodeStyleDetails x.toJson = some x :=
    styleDetails_rt
  have hsheets : ∀ x ∈ sheets, decodeSheetMetadata x.toJson = some x :=
    fun x hx => sheetMetadata_rt x (hsh x hx)
  have hsheets_get : dList decodeSheetMetadata (jlookup "sheets"
      (jArr "sheets" (sheets.map SheetMetadata.toJson) ++
        (jArrO "definedNames" (dns.map DefinedName.toJson) ++
          (jMapO "styles"
            (styles.map fun p => (intRepr p.1, StyleDetails.toJson p.2)) ++
            jTime "extractedAt" ts)))) = some sheets :=
    dList_jArr decodeSheetMetadata SheetMetadata.toJson "sheets" sheets _
      hsheets
  have hts_get : dTime (jlookup "extractedAt" (jTime "extractedAt" ts)) =
      some ts := dTime_jTime "extractedAt" ts hts
  simp only [Metadata.toJson, decodeMetadata, List.append_assoc,
    String.reduceEq, ne_eq, not_false_eq_true, dStr_jStr, dStruct_jObj,
    dList_jArrO, dIntMap_jMapO, hsheets_get, hts_get,
    jlookup_jStr_ne, jlookup_jObj_ne, jlookup_jArr_ne, jlookup_jArrO_ne,
    jlookup_jMapO_ne, jlookup_jTime_ne',
    hp, hdn, hsd, eq_self_iff_true, implies_true, Option.some_bind]
  rfl

/-! ## Extraction-level helper lemmas -/

/-- Extract always returns a nil error. -/
theorem Extract_snd (e : Extractor) (now : GoTime) : (Extract e now).2 = none :=
  rfl

/-- ExtractToJSON renders the single document `(Extract e now).1.toJson`,
compactly or indented according to the flag, with a nil error. -/
theorem ExtractToJSON_eq (e : Extractor) (pretty : Bool) (now : GoTime) :
    ExtractToJSON e pretty now =
      ((if pretty then renderJsonIndent (Extract e now).1.toJson ""
        else renderJson (Extract e now).1.toJson), none) := by
  cases hE : Extract e now with
  | mk md err =>
      have herr : err = none := by
        have h2 := Extract_snd e now
        rw [hE] at h2
        exact h2
      subst herr
      simp [ExtractToJSON, hE]

/-- C3: interchange round-trip. Decoding the JSON document of any
`Metadata` value (under the representation invariants every Go value
satisfies: calendar components in range, image bytes `< 256`) reproduces
the value; in the model the omission-when-empty rules are lossless because
assignable empty values coincide with Go's zero values. Moreover the
compact (`pretty = false`) and indented (`pretty = true`) outputs of
`ExtractToJSON` are renderings of this one document, so both decode to the
identical `Metadata` value. -/
theorem extractToJSON_roundTrip_C3 (e : Extractor) (now : GoTime)
    (pretty : Bool) (m : Metadata) (hWF : m.WF) :
    decodeMetadata m.toJson = some m ∧
    ExtractToJSON e pretty now =
      ((if pretty then renderJsonIndent (Extract e now).1.toJson ""
        else renderJson (Extract e now).1.toJson), none) :=
  ⟨metadata_rt m hWF, ExtractToJSON_eq e pretty now⟩

/-- Witness for C3 at the concrete `sampleMetadata` and sample workbook. -/
theorem extractToJSON_roundTrip_C3_witness :
    decodeMetadata sampleMetadata.toJson = some sampleMetadata :=
  (extractToJSON_roundTrip_C3 sampleExtractor ⟨2025, 10, 11, 0, 0, 0, 0⟩ true
    sampleMetadata (by decide)).1

/-! ## Lemmas: the cell scanner -/

/-- Characterization of the scan loop: it emits the `mkCellMeta` image of
the non-empty cells, truncated to the remaining budget when a positive cap
is configured. -/
theorem extractCellDataLoop_eq (e : Extractor) (sheet : String)
    (l : List (Nat × Nat × String)) (cnt : Nat) :
    extractCellDataLoop e sheet l cnt =
      ((if 0 < e.options.MaxCellsPerSheet then
          (l.filter fun p => p.2.2 != "").take
            (e.options.MaxCellsPerSheet.toNat - cnt)
        else l.filter fun p => p.2.2 != "").map
        fun p => mkCellMeta e sheet p.1 p.2.1 p.2.2) := by
  induction l generalizing cnt with
  | nil => simp [extractCellDataLoop]
  | cons hd tl ih =>
      obtain ⟨r, c, v⟩ := hd
      by_cases hv : v = ""
      · simp only [extractCellDataLoop, hv, if_pos, reduceIte, ih,
          List.filter_cons]
        simp
      · by_cases hM : 0 < e.options.MaxCellsPerSheet
        · by_cases hc : e.options.MaxCellsPerSheet ≤ (cnt : Int)
          · have htake : e.options.MaxCellsPerSheet.toNat - cnt = 0 := by
              omega
            simp only [extractCellDataLoop, hv, reduceIte, hM, hc, and_self,
              if_true, if_pos, htake, List.take_zero, List.map_nil]
          · have hlt : cnt < e.options.MaxCellsPerSheet.toNat := by omega
            have hsucc : e.options.MaxCellsPerSheet.toNat - cnt =
                (e.options.MaxCellsPerSheet.toNat - (cnt + 1)) + 1 := by
              omega
            simp only [extractCellDataLoop, hv, reduceIte, hM, hc, and_false,
              if_false, ih, if_pos, List.filter_cons]
            rw [hsucc]
            simp [hv, List.take_succ_cons]
        · simp only [extractCellDataLoop, hv, reduceIte, hM, false_and,
            if_false, ih, List.filter_cons]
          simp [hv]

/-- Characterization of `extractCellData` in terms of the non-empty cells
of the scan. -/
theorem extractCellData_eq (e : Extractor) (sheet : String)
    (rows : List (List String)) (h : e.file.getRows sheet = some rows) :
    extractCellData e sheet =
      some ((if 0 < e.options.MaxCellsPerSheet then
          (nonEmptyCells rows).take e.options.MaxCellsPerSheet.toNat
        else nonEmptyCells rows).map
        fun p => mkCellMeta e sheet p.1 p.2.1 p.2.2) := by
  simp only [extractCellData, h, Option.map_some', Option.some.injEq,
    extractCellDataLoop_eq, Nat.sub_zero, nonEmptyCells]

/-- C1: cap semantics of the cell scanner. With `GetRows` succeeding and
`N` non-empty cells in the row-major scan, a configured cap `M` with
`0 < M < N` yields exactly the first `M` non-empty cells, in scan order (so
scanning stops at the cap); a cap of `0` yields all `N` non-empty cells. -/
theorem extractCellData_cap_C1 (e : Extractor) (sheetName : String)
    (rows : List (List String)) (h : e.file.getRows sheetName = some rows)
    (N : Nat) (hN : (nonEmptyCells rows).length = N) :
    (∀ M : Nat, e.options.MaxCellsPerSheet = (M : Int) → 0 < M → M < N →
      ∃ cells, extractCellData e sheetName = some cells ∧
        cells = ((nonEmptyCells rows).take M).map
          (fun p => mkCellMeta e sheetName p.1 p.2.1 p.2.2) ∧
        cells.length = M) ∧
    (e.options.MaxCellsPerSheet = 0 →
      ∃ cells, extractCellData e sheetName = some cells ∧
        cells = (nonEmptyCells rows).map
          (fun p => mkCellMeta e sheetName p.1 p.2.1 p.2.2) ∧
        cells.length = N) := by
  constructor
  · intro M hM hpos hlt
    have hcond : (0 : Int) < (M : Int) := by exact_mod_cast hpos
    refine ⟨_, extractCellData_eq e sheetName rows h, ?_, ?_⟩
    · rw [hM]
      simp [hcond]
    · rw [hM]
      simp [hcond, hN]
      omega
  · intro hM
    refine ⟨_, extractCellData_eq e sheetName rows h, ?_, ?_⟩
    · rw [hM]
      simp
    · rw [hM]
      simp [hN]

/-- Witness for C1: the sample sheet has 3 non-empty cells; a cap of 1
yields exactly the first one, and the default cap of 0 yields all 3. -/
theorem extractCellData_cap_C1_witness :
    (∃ cells, extractCellData cappedExtractor "Sheet1" = some cells ∧
      cells = ((nonEmptyCells [["Product", "", "Cat"], ["", "100"]]).take 1).map
        (fun p => mkCellMeta cappedExtractor "Sheet1" p.1 p.2.1 p.2.2) ∧
      cells.length = 1) ∧
    (∃ cells, extractCellData sampleExtractor "Sheet1" = some cells ∧
      cells = (nonEmptyCells [["Product", "", "Cat"], ["", "100"]]).map
        (fun p => mkCellMeta sampleExtractor "Sheet1" p.1 p.2.1 p.2.2) ∧
      cells.length = 3) :=
  ⟨(extractCellData_cap_C1 cappedExtractor "Sheet1"
      [["Product", "", "Cat"], ["", "100"]] rfl 3 (by decide)).1 1 rfl
      (by decide) (by decide),
   (extractCellData_cap_C1 sampleExtractor "Sheet1"
      [["Product", "", "Cat"], ["", "100"]] rfl 3 (by decide)).2 rfl⟩

/-! ## Lemmas: projections of the per-sheet record -/

/-- The scanner stores the scanned value in the cell record. -/
theorem mkCellMeta_Value (e : Extractor) (sheet : String) (r c : Nat)
    (v : String) : (mkCellMeta e sheet r c v).Value = some v := by
  unfold mkCellMeta
  dsimp only
  repeat' split
  all_goals rfl

/-- The per-sheet record's cell sequence is the scanner's output when cell
data is included and the scan succeeds, and empty otherwise. -/
theorem extractSheetMetadata_Cells (e : Extractor) (index : Int)
    (sheetName : String) :
    (extractSheetMetadata e index sheetName).1.Cells =
      (if e.options.IncludeCellData then
        match extractCellData e sheetName with
        | some cells => cells
        | none => []
      else []) := by
  unfold extractSheetMetadata
  dsimp only
  repeat' split
  all_goals simp_all

/-- The per-sheet record's row-height map is always empty. -/
theorem extractSheetMetadata_RowHeights (e : Extractor) (index : Int)
    (sheetName : String) :
    (extractSheetMetadata e index sheetName).1.RowHeights = [] := by
  unfold extractSheetMetadata
  dsimp only
  repeat' split
  all_goals rfl

/-- The per-sheet record keeps the sheet name it was given. -/
theorem extractSheetMetadata_Name (e : Extractor) (index : Int)
    (sheetName : String) :
    (extractSheetMetadata e index sheetName).1.Name = sheetName := by
  unfold extractSheetMetadata
  dsimp only
  repeat' split
  all_goals rfl

/-- The per-sheet record keeps the index it was given. -/
theorem extractSheetMetadata_Index (e : Extractor) (index : Int)
    (sheetName : String) :
    (extractSheetMetadata e index sheetName).1.Index = index := by
  unfold extractSheetMetadata
  dsimp only
  repeat' split
  all_goals rfl

/-- Per-sheet extraction always reports a nil error. -/
theorem extractSheetMetadata_snd (e : Extractor) (index : Int)
    (sheetName : String) :
    (extractSheetMetadata e index sheetName).2 = none := by
  unfold extractSheetMetadata
  dsimp only

/-- C5: non-empty-cell invariant. Every cell record in a produced sheet's
cell sequence carries a non-empty textual value; empty cells are skipped,
never materialized (null-valued or otherwise). -/
theorem cells_nonEmpty_C5 (e : Extractor) (index : Int) (sheetName : String) :
    ∀ cm ∈ (extractSheetMetadata e index sheetName).1.Cells,
      ∃ v, cm.Value = some v ∧ v ≠ "" := by
  intro cm hcm
  rw [extractSheetMetadata_Cells] at hcm
  by_cases hinc : e.options.IncludeCellData
  · rw [if_pos hinc] at hcm
    rcases hrows : extractCellData e sheetName with _ | cells
    · rw [hrows] at hcm
      simp at hcm
    · rw [hrows] at hcm
      rcases hgr : e.file.getRows sheetName with _ | rows
      · rw [extractCellData, hgr] at hrows
        simp at hrows
      · have heq := extractCellData_eq e sheetName rows hgr
        rw [hrows] at heq
        have hceq := (Option.some.injEq _ _).mp heq
        subst hceq
        obtain ⟨p, hp, rfl⟩ := List.mem_map.mp hcm
        refine ⟨p.2.2, mkCellMeta_Value _ _ _ _ _, ?_⟩
        have hpne : p ∈ nonEmptyCells rows := by
          by_cases hM : 0 < e.options.MaxCellsPerSheet
          · rw [if_pos hM] at hp
            exact List.take_subset _ _ hp
          · rw [if_neg hM] at hp
            exact hp
        simp only [nonEmptyCells, List.mem_filter, bne_iff_ne, ne_eq] at hpne
        exact hpne.2
  · rw [if_neg hinc] at hcm
    simp at hcm

/-- Witness for C5 at the first cell of the sample sheet. -/
theorem cells_nonEmpty_C5_witness :
    ∃ v, (mkCellMeta sampleExtractor "Sheet1" 0 0 "Product").Value = some v ∧
      v ≠ "" :=
  cells_nonEmpty_C5 sampleExtractor 0 "Sheet1" _ (by
    have h : (extractSheetMetadata sampleExtractor 0 "Sheet1").1.Cells =
        [mkCellMeta sampleExtractor "Sheet1" 0 0 "Product",
         mkCellMeta sampleExtractor "Sheet1" 0 2 "Cat",
         mkCellMeta sampleExtractor "Sheet1" 1 1 "100"] := by decide
    rw [h]
    exact List.mem_cons_self _ _)

/-- C6: empty-sheet dimension degradation. When the used range has zero
rows or zero columns the dimensions degrade to the single-cell `A1` range
with zero counts; in every case the counts are non-negative and agree with
the reported start/end range. -/
theorem getSheetDimensions_C6 (e : Extractor) (sheetName : String)
    (rows : List (List String)) (h : e.file.getRows sheetName = some rows) :
    ((rows.length = 0 ∨ maxColCount rows = 0) →
      getSheetDimensions e sheetName =
        some { StartCell := "A1", EndCell := "A1", RowCount := 0,
               ColCount := 0 }) ∧
    (∀ d, getSheetDimensions e sheetName = some d →
      0 ≤ d.RowCount ∧ 0 ≤ d.ColCount ∧ d.StartCell = "A1" ∧
      (d.RowCount = 0 → d.EndCell = "A1" ∧ d.ColCount = 0) ∧
      (d.RowCount ≠ 0 →
        d.EndCell = columnNumberToName d.ColCount ++
          natRepr d.RowCount.toNat)) := by
  constructor
  · intro hempty
    simp only [getSheetDimensions, h, Option.map_some', Option.some.injEq]
    rw [if_pos hempty]
  · intro d hd
    simp only [getSheetDimensions, h, Option.map_some', Option.some.injEq]
      at hd
    by_cases hempty : rows.length = 0 ∨ maxColCount rows = 0
    · rw [if_pos hempty] at hd
      subst hd
      refine ⟨le_refl 0, le_refl 0, rfl, fun _ => ⟨rfl, rfl⟩, fun hne => ?_⟩
      exact absurd rfl hne
    · rw [if_neg hempty] at hd
      subst hd
      push_neg at hempty
      refine ⟨by simp, by simp, rfl, fun h0 => ?_, fun _ => ?_⟩
      · exfalso
        have h0' : (rows.length : Int) = 0 := by simpa using h0
        have hlen : rows.length = 0 := by exact_mod_cast h0'
        exact hempty.1 hlen
      · simp

/-- Witness for C6 at the empty sample sheet. -/
theorem getSheetDimensions_C6_witness :
    getSheetDimensions sampleExtractor "Sheet2" =
      some { StartCell := "A1", EndCell := "A1", RowCount := 0,
             ColCount := 0 } :=
  (getSheetDimensions_C6 sampleExtractor "Sheet2" [] rfl).1 (by decide)

/-! ## Lemmas: style deduplication -/

/-- Lookup across an appended singleton binding. -/
theorem slookup_append (k k' : Int) (v : StyleDetails)
    (l : List (Int × StyleDetails)) :
    slookup k (l ++ [(k', v)]) =
      match slookup k l with
      | some d => some d
      | none => if k' = k then some v else none := by
  induction l with
  | nil => simp [slookup]
  | cons p rest ih =>
      by_cases hp : p.1 = k
      · simp [slookup, hp]
      · simp only [List.cons_append, slookup, hp, if_false]
        exact ih

/-- The scan step preserves the deduplication invariant. -/
theorem styleStep_inv (e : Extractor) (acc : StyleAcc)
    (hInv : StyleInv e acc) (cell : String × Nat × Nat) :
    StyleInv e (styleStep e acc cell) := by
  obtain ⟨h1, h2, h3, h4, h5, h6⟩ := hInv
  unfold styleStep
  dsimp only
  rcases hgs : e.file.getCellStyle cell.1 (cellAddress cell.2.1 cell.2.2)
    with _ | id
  · exact ⟨h1, h2, h3, h4, h5, h6⟩
  · dsimp only
    by_cases hid0 : id ≠ 0
    · rw [if_pos hid0]
      by_cases hproc : id ∈ acc.processed
      · rw [if_pos hproc]
        exact ⟨h1, h2, h3, h4, h5, h6⟩
      · rw [if_neg hproc]
        rcases hdec : extractStyleDetails e id with _ | st
        · refine ⟨?_, h2, h3, ?_, h5, h6⟩
          · simp only [List.mem_append, List.mem_singleton]
            push_neg
            exact ⟨h1, fun h0 => hid0 h0.symm⟩
          · intro id2 hok
            have hne : id ≠ id2 := by
              intro heq
              subst heq
              rw [Option.isSome_iff_exists] at hok
              obtain ⟨raw, hraw⟩ := hok
              rw [extractStyleDetails, hraw] at hdec
              simp at hdec
            simp only [List.count_append, List.count_singleton']
            rw [if_neg hne, h4 id2 hok]
            omega
        · refine ⟨?_, ?_, ?_, ?_, ?_, ?_⟩
          · simp only [List.mem_append, List.mem_singleton]
            push_neg
            exact ⟨h1, fun h0 => hid0 h0.symm⟩
          · rw [slookup_append, h2]
            simp only
            rw [if_neg (fun h0 => hid0 h0)]
          · intro id2
            rw [slookup_append]
            simp only [List.mem_append, List.mem_singleton]
            rcases hsl : slookup id2 acc.styles with _ | d
            · simp only [Option.isSome_some, Option.isSome_none]
              constructor
              · intro h
                rcases h with h | h
                · have := (h3 id2).mp h
                  rw [hsl] at this
                  simp at this
                · subst h
                  simp
              · intro h
                by_cases hii : id = id2
                · right
                  exact hii.symm
                · rw [if_neg hii] at h
                  simp at h
            · simp only [Option.isSome_some]
              constructor
              · intro _
                trivial
              · intro _
                left
                exact (h3 id2).mpr (by rw [hsl]; rfl)
          · intro id2 hok
            simp only [List.count_append, List.count_singleton',
              List.mem_append, List.mem_singleton]
            by_cases hii : id = id2
            · subst hii
              rw [h4 id hok, if_neg hproc]
              simp
            · rw [if_neg hii, h4 id2 hok, add_zero]
              by_cases hm : id2 ∈ acc.processed
              · rw [if_pos hm, if_pos (Or.inl hm)]
              · rw [if_neg hm, if_neg ?_]
                push_neg
                exact ⟨hm, fun h0 => hii h0.symm⟩
          · intro id2 hfail
            have hne : id ≠ id2 := by
              intro heq
              subst heq
              rw [extractStyleDetails] at hdec
              rcases hraw : e.file.getStyle id with _ | raw
              · rw [hraw] at hdec
                simp at hdec
              · rw [hraw] at hfail
                simp at hfail
            have h5x := h5 id2 hfail
            refine ⟨?_, ?_⟩
            · simp only [List.mem_append, List.mem_singleton]
              push_neg
              exact ⟨h5x.1, fun h0 => hne h0.symm⟩
            · rw [slookup_append, h5x.2]
              simp only
              rw [if_neg hne]
          · intro id2 d
            rw [slookup_append]
            rcases hsl : slookup id2 acc.styles with _ | d0
            · simp only
              by_cases hii : id = id2
              · rw [if_pos hii]
                intro hd
                have hdd : st = d := by
                  injection hd
                subst hdd
                subst hii
                exact ⟨hdec, hid0⟩
              · rw [if_neg hii]
                intro hd
                exact absurd hd (by simp)
            · simp only
              intro hd
              have : d0 = d := by injection hd
              subst this
              exact h6 id2 d0 hsl
    · rw [if_neg hid0]
      exact ⟨h1, h2, h3, h4, h5, h6⟩

/-- The fold of the scan step preserves the invariant. -/
theorem foldl_styleStep_inv (e : Extractor) (l : List (String × Nat × Nat)) :
    ∀ acc, StyleInv e acc → StyleInv e (l.foldl (styleStep e) acc) := by
  induction l with
  | nil => exact fun acc h => h
  | cons c rest ih =>
      intro acc hacc
      exact ih (styleStep e acc c) (styleStep_inv e acc hacc c)

/-- The full style scan satisfies the deduplication invariant. -/
theorem styleFold_inv (e : Extractor) : StyleInv e (styleFold e) := by
  unfold styleFold
  apply foldl_styleStep_inv
  refine ⟨by simp, rfl, ?_, ?_, ?_, ?_⟩
  · intro id
    simp [slookup]
  · intro id _
    simp
  · intro id _
    exact ⟨by simp, rfl⟩
  · intro id d hd
    simp [slookup] at hd

/-- The scan step preserves the strengthened invariant, the encountered
identifiers growing by the step's `GetCellStyle` result. -/
theorem styleStep_inv2 (e : Extractor) (seen : List Int) (acc : StyleAcc)
    (h : StyleInv2 e seen acc) (cell : String × Nat × Nat) :
    StyleInv2 e
      (seen ++ (e.file.getCellStyle cell.1
        (cellAddress cell.2.1 cell.2.2)).toList)
      (styleStep e acc cell) := by
  obtain ⟨hI, hps, hcov, hfc⟩ := h
  have hI' := styleStep_inv e acc hI cell
  rcases hgs : e.file.getCellStyle cell.1 (cellAddress cell.2.1 cell.2.2)
    with _ | id
  · have hacc : styleStep e acc cell = acc := by
      unfold styleStep
      dsimp only
      rw [hgs]
    rw [hacc]
    simp only [Option.toList, List.append_nil]
    exact ⟨hI, hps, hcov, hfc⟩
  · simp only [Option.toList]
    by_cases hid0 : id ≠ 0
    · by_cases hproc : id ∈ acc.processed
      · have hacc : styleStep e acc cell = acc := by
          unfold styleStep
          dsimp only
          rw [hgs]
          dsimp only
          rw [if_pos hid0, if_pos hproc]
        rw [hacc]
        refine ⟨hI, ?_, ?_, ?_⟩
        · intro id2 h2
          exact List.mem_append.mpr (Or.inl (hps id2 h2))
        · intro id2 hmem hne hsome
          rcases List.mem_append.mp hmem with hmem | hmem
          · exact hcov id2 hmem hne hsome
          · simp only [List.mem_singleton] at hmem
            rw [hmem]
            exact hproc
        · intro id2 hne hfail
          have hne2 : id ≠ id2 := by
            intro heq
            rw [← heq] at hfail
            obtain ⟨_, _, _, _, h5, _⟩ := hI
            have hg : e.file.getStyle id = none := by
              rw [extractStyleDetails] at hfail
              exact Option.map_eq_none'.mp hfail
            exact (h5 id (by simp [hg])).1 hproc
          rw [hfc id2 hne hfail, List.count_append, List.count_singleton',
            if_neg hne2]
          omega
      · rcases hdec : extractStyleDetails e id with _ | st
        · have hacc : styleStep e acc cell =
              { acc with decoded := acc.decoded ++ [id] } := by
            unfold styleStep
            dsimp only
            rw [hgs]
            dsimp only
            rw [if_pos hid0, if_neg hproc, hdec]
          rw [hacc] at hI'
          rw [hacc]
          refine ⟨hI', ?_, ?_, ?_⟩
          · intro id2 h2
            exact List.mem_append.mpr (Or.inl (hps id2 h2))
          · intro id2 hmem hne hsome
            rcases List.mem_append.mp hmem with hmem | hmem
            · exact hcov id2 hmem hne hsome
            · simp only [List.mem_singleton] at hmem
              rw [hmem, hdec] at hsome
              simp at hsome
          · intro id2 hne hfail
            simp only [List.count_append, List.count_singleton',
              hfc id2 hne hfail]
        · have hacc : styleStep e acc cell =
              { styles := acc.styles ++ [(id, st)],
                processed := acc.processed ++ [id],
                decoded := acc.decoded ++ [id] } := by
            unfold styleStep
            dsimp only
            rw [hgs]
            dsimp only
            rw [if_pos hid0, if_neg hproc, hdec]
          rw [hacc] at hI'
          rw [hacc]
          refine ⟨hI', ?_, ?_, ?_⟩
          · intro id2 h2
            rcases List.mem_append.mp h2 with h2 | h2
            · exact List.mem_append.mpr (Or.inl (hps id2 h2))
            · exact List.mem_append.mpr (Or.inr h2)
          · intro id2 hmem hne hsome
            rcases List.mem_append.mp hmem with hmem | hmem
            · exact List.mem_append.mpr (Or.inl (hcov id2 hmem hne hsome))
            · exact List.mem_append.mpr (Or.inr hmem)
          · intro id2 hne hfail
            have hne2 : id ≠ id2 := by
              intro heq
              rw [← heq] at hfail
              rw [hfail] at hdec
              simp at hdec
            simp only [List.count_append, List.count_singleton',
              if_neg hne2, hfc id2 hne hfail]
    · have hid : id = 0 := not_not.mp hid0
      subst hid
      have hacc : styleStep e acc cell = acc := by
        unfold styleStep
        dsimp only
        rw [hgs]
        dsimp only
        rw [if_neg hid0]
      rw [hacc]
      refine ⟨hI, ?_, ?_, ?_⟩
      · intro id2 h2
        exact List.mem_append.mpr (Or.inl (hps id2 h2))
      · intro id2 hmem hne hsome
        rcases List.mem_append.mp hmem with hmem | hmem
        · exact hcov id2 hmem hne hsome
        · simp only [List.mem_singleton] at hmem
          exact absurd hmem hne
      · intro id2 hne hfail
        rw [hfc id2 hne hfail, List.count_append, List.count_singleton',
          if_neg (fun h0 => hne h0.symm)]
        omega

/-- The fold of the scan step preserves the strengthened invariant. -/
theorem foldl_styleStep_inv2 (e : Extractor) (l : List (String × Nat × Nat)) :
    ∀ seen acc, StyleInv2 e seen acc →
      StyleInv2 e (seen ++ styleIdList e l) (l.foldl (styleStep e) acc) := by
  induction l with
  | nil =>
      intro seen acc h
      have hs : seen ++ styleIdList e [] = seen := by
        simp [styleIdList]
      rw [List.foldl_nil, hs]
      exact h
  | cons c rest ih =>
      intro seen acc h
      have hstep := styleStep_inv2 e seen acc h c
      have hrest := ih (seen ++ (e.file.getCellStyle c.1
        (cellAddress c.2.1 c.2.2)).toList) (styleStep e acc c) hstep
      have hs : seen ++ styleIdList e (c :: rest) =
          (seen ++ (e.file.getCellStyle c.1
            (cellAddress c.2.1 c.2.2)).toList) ++ styleIdList e rest := by
        simp [styleIdList, List.append_assoc]
      rw [List.foldl_cons, hs]
      exact hrest

/-- The full style scan satisfies the strengthened invariant over all
encountered identifiers. -/
theorem styleFold_inv2 (e : Extractor) :
    StyleInv2 e (styleIdsSeen e) (styleFold e) := by
  have h0 : StyleInv2 e [] ⟨[], [], []⟩ := by
    refine ⟨⟨by simp, rfl, ?_, ?_, ?_, ?_⟩, ?_, ?_, ?_⟩
    · intro id
      simp [slookup]
    · intro id _
      simp
    · intro id _
      exact ⟨by simp, rfl⟩
    · intro id d hd
      simp [slookup] at hd
    · intro id h2
      simp at h2
    · intro id h2
      simp at h2
    · intro id _ _
      simp
  have hfold := foldl_styleStep_inv2 e (styleScanCells e) [] ⟨[], [], []⟩ h0
  have hs : ([] : List Int) ++ styleIdList e (styleScanCells e) =
      styleIdsSeen e := by
    simp [styleIdsSeen]
  rw [hs] at hfold
  exact hfold

/-- C7 (amended): style deduplication across all sheets' cells. Identifier
0 is never decoded or inserted; every encountered non-zero identifier
whose decode succeeds is inserted into the output mapping with its decoded
details and is decoded (GetStyle called) exactly once — first occurrence
wins, later occurrences are cache hits; conversely every mapped identifier
is a non-zero encountered identifier mapping to its decoded details,
decoded exactly once; and an identifier whose decoding fails is absent
from the output mapping and is re-attempted at each occurrence, one
GetStyle call per occurrence, rather than decoded only once — the sole
correction to the claim. -/
theorem extractUniqueStyles_dedup_C7 (e : Extractor) :
    ((0 : Int) ∉ (styleFold e).decoded ∧
      slookup 0 (extractUniqueStyles e) = none) ∧
    (∀ id, id ∈ styleIdsSeen e → id ≠ 0 →
      ∀ d, extractStyleDetails e id = some d →
        slookup id (extractUniqueStyles e) = some d ∧
        (styleFold e).decoded.count id = 1) ∧
    (∀ id d, slookup id (extractUniqueStyles e) = some d →
      id ≠ 0 ∧ id ∈ styleIdsSeen e ∧ extractStyleDetails e id = some d ∧
      (styleFold e).decoded.count id = 1) ∧
    (∀ id, e.file.getStyle id = none →
      slookup id (extractUniqueStyles e) = none ∧
      (id ≠ 0 →
        (styleFold e).decoded.count id = (styleIdsSeen e).count id)) := by
  obtain ⟨⟨h1, h2, h3, h4, h5, h6⟩, hps, hcov, hfc⟩ := styleFold_inv2 e
  refine ⟨⟨h1, h2⟩, ?_, ?_, ?_⟩
  · intro id hseen hne d hdet
    have hproc : id ∈ (styleFold e).processed :=
      hcov id hseen hne (by simp [hdet])
    have hok : (e.file.getStyle id).isSome = true := by
      rcases hraw : e.file.getStyle id with _ | raw
      · rw [extractStyleDetails, hraw] at hdet
        simp at hdet
      · rfl
    have hslv : (slookup id (styleFold e).styles).isSome = true :=
      (h3 id).mp hproc
    rcases hsl : slookup id (styleFold e).styles with _ | d0
    · rw [hsl] at hslv
      simp at hslv
    · have h6x := h6 id d0 hsl
      have hd0 : d0 = d := by
        have hh := h6x.1
        rw [hdet] at hh
        injection hh with hh
        exact hh.symm
      rw [hd0] at hsl
      refine ⟨hsl, ?_⟩
      rw [h4 id hok, if_pos hproc]
  · intro id d hd
    have h6x := h6 id d hd
    have hproc : id ∈ (styleFold e).processed :=
      (h3 id).mpr (by
        rw [show slookup id (styleFold e).styles = some d from hd]
        rfl)
    have hok : (e.file.getStyle id).isSome = true := by
      rcases hraw : e.file.getStyle id with _ | raw
      · have hh := h6x.1
        rw [extractStyleDetails, hraw] at hh
        simp at hh
      · rfl
    refine ⟨h6x.2, hps id hproc, h6x.1, ?_⟩
    rw [h4 id hok, if_pos hproc]
  · intro id hnone
    have hfail : extractStyleDetails e id = none := by
      simp [extractStyleDetails, hnone]
    refine ⟨(h5 id (by rw [hnone]; rfl)).2, ?_⟩
    intro hne
    exact hfc id hne hfail

/-- Counterexample to C7 as stated: in the sample workbook identifier 5
fails to decode and occurs on two cells, so `GetStyle` is invoked twice for
it — not exactly once. -/
theorem extractUniqueStyles_dedup_C7_counterexample :
    sampleFile.getStyle 5 = none ∧
    (styleFold sampleExtractor).decoded.count 5 = 2 := by
  constructor
  · rfl
  · decide

/-- Witness for C7 (amended) at the sample workbook: identifier 2 is
encountered, decodes, is inserted into the mapping with its decoded
details and is decoded exactly once; identifier 5 fails to decode, is
absent from the mapping, and is decoded once per occurrence. -/
theorem extractUniqueStyles_dedup_C7_witness :
    (2 : Int) ∈ styleIdsSeen sampleExtractor ∧
    slookup 2 (extractUniqueStyles sampleExtractor) =
      some { Font := some ⟨true, false, "", false, "Arial", 12, "FF0000"⟩,
             Fill := none, Border := [], Alignment := none,
             NumberFormat := 0, Protection := none } ∧
    (styleFold sampleExtractor).decoded.count 2 = 1 ∧
    slookup 5 (extractUniqueStyles sampleExtractor) = none ∧
    (styleFold sampleExtractor).decoded.count 5 =
      (styleIdsSeen sampleExtractor).count 5 := by
  have hseen : styleIdsSeen sampleExtractor = [2, 0, 5, 0, 5] := by decide
  have hmem : (2 : Int) ∈ styleIdsSeen sampleExtractor := by
    rw [hseen]
    exact List.mem_cons_self _ _
  have hmain := (extractUniqueStyles_dedup_C7 sampleExtractor).2.1 2 hmem
    (by decide)
    { Font := some ⟨true, false, "", false, "Arial", 12, "FF0000"⟩,
      Fill := none, Border := [], Alignment := none, NumberFormat := 0,
      Protection := none } (by decide)
  have hfail := (extractUniqueStyles_dedup_C7 sampleExtractor).2.2.2 5 rfl
  exact ⟨hmem, hmain.1, hmain.2, hfail.1, hfail.2 (by decide)⟩

/-! ## Lemmas: the extraction orchestrator -/

/-- The sheets of the extracted metadata are the sheet-loop's output. -/
theorem Extract_Sheets (e : Extractor) (now : GoTime) :
    (Extract e now).1.Sheets = extractSheets e := by
  unfold Extract
  dsimp only
  repeat' split
  all_goals rfl

/-- Since per-sheet extraction never fails, the sheet loop keeps every
sheet of the declared list, in order. -/
theorem extractSheets_eq (e : Extractor) :
    extractSheets e =
      e.file.sheetList.enum.map
        (fun p => (extractSheetMetadata e (p.1 : Int) p.2).1) := by
  unfold extractSheets
  generalize e.file.sheetList.enum = l
  suffices h : ∀ acc : List SheetMetadata,
      l.foldl (fun acc p =>
        match extractSheetMetadata e (p.1 : Int) p.2 with
        | (sheetMeta, none) => acc ++ [sheetMeta]
        | (_, some _) => acc) acc =
      acc ++ l.map (fun p => (extractSheetMetadata e (p.1 : Int) p.2).1) by
    simpa using h []
  induction l with
  | nil =>
      intro acc
      simp
  | cons p rest ih =>
      intro acc
      have hx : extractSheetMetadata e (p.1 : Int) p.2 =
          ((extractSheetMetadata e (p.1 : Int) p.2).1, none) :=
        Prod.ext rfl (extractSheetMetadata_snd e _ _)
      simp only [List.foldl_cons, List.map_cons]
      rw [hx, ih]
      simp

/-- C9: Extract is infallible after construction. It returns a nil error,
the per-sheet skip branch is unreachable because `extractSheetMetadata`
always returns a nil error, and every sheet of the declared sheet list
appears, in order, in the output sheet sequence. -/
theorem Extract_infallible_C9 (e : Extractor) (now : GoTime) (index : Int)
    (sheetName : String) :
    (Extract e now).2 = none ∧
    (extractSheetMetadata e index sheetName).2 = none ∧
    (Extract e now).1.Sheets.map SheetMetadata.Name = e.file.sheetList := by
  refine ⟨Extract_snd e now, extractSheetMetadata_snd e index sheetName, ?_⟩
  rw [Extract_Sheets, extractSheets_eq, List.map_map]
  have hname : (SheetMetadata.Name ∘
      fun p : Nat × String => (extractSheetMetadata e (p.1 : Int) p.2).1) =
      Prod.snd := by
    funext p
    exact extractSheetMetadata_Name e _ _
  rw [hname, List.enum_map_snd]

/-- The empty map case of the map-field builder. -/
theorem jMapO_nil (k : String) : jMapO k [] = [] := rfl

/-- A sheet with an empty row-height map has no `rowHeights` key in its
JSON object. -/
theorem jlookup_rowHeights_none (s : SheetMetadata) (h : s.RowHeights = []) :
    jlookup "rowHeights" s.jfields = none := by
  obtain ⟨idx, nm, vis, dims, mcs, dvs, prot, rhs, cws, cls, imgs⟩ := s
  simp only at h
  subst h
  simp only [SheetMetadata.jfields, List.map_nil, jMapO_nil,
    List.nil_append, List.append_assoc, String.reduceEq, ne_eq,
    not_false_eq_true, jlookup_jInt_ne, jlookup_jStr_ne, jlookup_jBool_ne,
    jlookup_jObj_ne, jlookup_jArrO_ne, jlookup_jArrO_ne', jlookup_jOptO_ne,
    jlookup_jMapO_ne]

/-- C10: the row-height map of every extracted sheet is empty — the map is
allocated but never populated — and therefore, by the omit-when-empty rule,
the `rowHeights` field never appears in its interchange JSON object. -/
theorem rowHeights_empty_C10 (e : Extractor) (now : GoTime) (index : Int)
    (sheetName : String) :
    (extractSheetMetadata e index sheetName).1.RowHeights = [] ∧
    (∀ s ∈ (Extract e now).1.Sheets, s.RowHeights = [] ∧
      jlookup "rowHeights" s.jfields = none) := by
  refine ⟨extractSheetMetadata_RowHeights e index sheetName, ?_⟩
  intro s hs
  rw [Extract_Sheets, extractSheets_eq] at hs
  obtain ⟨p, _, rfl⟩ := List.mem_map.mp hs
  have hrh := extractSheetMetadata_RowHeights e (p.1 : Int) p.2
  exact ⟨hrh, jlookup_rowHeights_none _ hrh⟩

/-- Witness for C10 at the sample workbook's first sheet. -/
theorem rowHeights_empty_C10_witness :
    (extractSheetMetadata sampleExtractor 0 "Sheet1").1.RowHeights = [] ∧
    jlookup "rowHeights"
      (extractSheetMetadata sampleExtractor 0 "Sheet1").1.jfields = none := by
  have hmem : (extractSheetMetadata sampleExtractor 0 "Sheet1").1 ∈
      (Extract sampleExtractor ⟨2025, 10, 11, 0, 0, 0, 0⟩).1.Sheets := by
    have h : (Extract sampleExtractor ⟨2025, 10, 11, 0, 0, 0, 0⟩).1.Sheets =
        [(extractSheetMetadata sampleExtractor 0 "Sheet1").1,
         (extractSheetMetadata sampleExtractor 1 "Sheet2").1] := by decide
    rw [h]
    exact List.mem_cons_self _ _
  exact (rowHeights_empty_C10 sampleExtractor ⟨2025, 10, 11, 0, 0, 0, 0⟩ 0
    "Sheet1").2 _ hmem

/-- ExtractToGO renders the metadata literal inside the fixed program
template, with a nil error. -/
theorem ExtractToGO_eq (e : Extractor) (now : GoTime) :
    ExtractToGO e now =
      (goProgram (marshalGoMetadata (Extract e now).1 ""), none) := by
  cases hE : Extract e now with
  | mk md err =>
      have herr : err = none := by
        have h2 := Extract_snd e now
        rw [hE] at h2
        exact h2
      subst herr
      simp [ExtractToGO, hE]

/-- C8: output-kind dispatch of ExtractToFile. A `.json` extension selects
the JSON interchange encoding, a `.go` extension selects the Go
literal-reconstruction encoding, and any other extension yields the
unsupported-extension error — in which case no write effect is produced
(the error constructor carries none). -/
theorem extractToFile_dispatch_C8 (e : Extractor) (outputPath : String)
    (pretty : Bool) (now : GoTime) :
    (pathExt outputPath = ".json" →
      ExtractToFile e outputPath pretty now =
        Except.ok ⟨pathDir outputPath, outputPath,
          (ExtractToJSON e pretty now).1⟩) ∧
    (pathExt outputPath = ".go" →
      ExtractToFile e outputPath pretty now =
        Except.ok ⟨pathDir outputPath, outputPath, (ExtractToGO e now).1⟩) ∧
    (pathExt outputPath ≠ ".json" → pathExt outputPath ≠ ".go" →
      ExtractToFile e outputPath pretty now =
        Except.error ("unsupported " ++ pathExt outputPath ++ " file")) := by
  refine ⟨?_, ?_, ?_⟩
  · intro hext
    unfold ExtractToFile
    dsimp only
    rw [if_pos hext, ExtractToJSON_eq]
  · intro hext
    unfold ExtractToFile
    dsimp only
    rw [if_neg (by rw [hext]; decide), if_pos hext, ExtractToGO_eq]
  · intro hj hg
    unfold ExtractToFile
    dsimp only
    rw [if_neg hj, if_neg hg]

/-- Witness for C8 at three concrete output paths. -/
theorem extractToFile_dispatch_C8_witness :
    (ExtractToFile sampleExtractor "out/meta.json" true
        ⟨2025, 10, 11, 0, 0, 0, 0⟩ =
      Except.ok ⟨pathDir "out/meta.json", "out/meta.json",
        (ExtractToJSON sampleExtractor true ⟨2025, 10, 11, 0, 0, 0, 0⟩).1⟩) ∧
    (ExtractToFile sampleExtractor "out/meta.go" true
        ⟨2025, 10, 11, 0, 0, 0, 0⟩ =
      Except.ok ⟨pathDir "out/meta.go", "out/meta.go",
        (ExtractToGO sampleExtractor ⟨2025, 10, 11, 0, 0, 0, 0⟩).1⟩) ∧
    (ExtractToFile sampleExtractor "out/meta.txt" true
        ⟨2025, 10, 11, 0, 0, 0, 0⟩ =
      Except.error ("unsupported " ++ pathExt "out/meta.txt" ++ " file")) :=
  ⟨(extractToFile_dispatch_C8 sampleExtractor "out/meta.json" true
      ⟨2025, 10, 11, 0, 0, 0, 0⟩).1 (by decide),
   (extractToFile_dispatch_C8 sampleExtractor "out/meta.go" true
      ⟨2025, 10, 11, 0, 0, 0, 0⟩).2.1 (by decide),
   (extractToFile_dispatch_C8 sampleExtractor "out/meta.txt" true
      ⟨2025, 10, 11, 0, 0, 0, 0⟩).2.2 (by decide) (by decide)⟩

/-- C2 (code bug): the Go-literal encoder serializes map entries in Go's
map iteration order, which is unspecified; the two association lists below
are permutations of each other — the same Go map value — yet produce
different bytes, so the output is neither deterministic across runs nor in
fixed ascending key order. -/
theorem marshalGo_map_order_C2 :
    [("A", (10 : Rat)), ("B", (11 : Rat))].Perm
      [("B", (11 : Rat)), ("A", (10 : Rat))] ∧
    marshalGoColWidths [("A", 10), ("B", 11)] ≠
      marshalGoColWidths [("B", 11), ("A", 10)] := by
  constructor
  · exact List.Perm.swap _ _ _
  · decide

/-- C4 (code bug): the `*string` arm of the Go-literal encoder prints the
pointee with `%v` — raw and unquoted — instead of an escaped, quoted
literal, so a `DataValidation.ErrorTitle` such as `say "hi"` is emitted
verbatim into the generated program, which is not valid Go source. The
plain `string` arm, by contrast, quotes with `%q`. -/
theorem marshalGo_ptrString_raw_C4 :
    marshalGoOptString (some "say \"hi\"") = "say \"hi\"" ∧
    marshalGoString "say \"hi\"" = "\"say \\\"hi\\\"\"" ∧
    marshalGoOptString (some "say \"hi\"") ≠ goQuote "say \"hi\"" := by
  refine ⟨rfl, by decide, by decide⟩

end Excelmetadata
